import Mathlib

/-!
# AzureDevOpsAIBusinessValidator: a shallow embedding of `index.js`

The script correlates pull requests with a work item, assembles the changed
text files of every pull request, asks a generation service for a verdict and
writes the report back to the work item.

Conventions of the embedding:

* a JavaScript string is a list of characters (`Str`);
* a JavaScript number holding an identifier is `JsNum = Option Int`, where
  `none` is `NaN` (identifiers are far below `2 ^ 53`, so the integers are exact);
* every remote call is an oracle over an arbitrary world state `σ`: it answers
  with a value, with nothing (`null` / `undefined`) or by raising, and leaves a
  new world state; every call made is appended to a chronological call log;
* a raised exception is an `Error` object carrying its `message`.
-/

namespace AzureValidator

/-! ## JavaScript strings and numbers -/

/-- A JavaScript string. -/
abbrev Str := List Char

/-- A JavaScript number holding an integer, `none` being `NaN`. -/
abbrev JsNum := Option Int

/-- Decimal rendering of a number inside a template literal. -/
def numToStr : JsNum → Str
  | none => "NaN".toList
  | some (Int.ofNat n) => Nat.toDigits 10 n
  | some (Int.negSucc n) => '-' :: Nat.toDigits 10 (n + 1)

/-- Truthiness of a number: `NaN` and `0` are falsy. -/
def truthyNum : JsNum → Bool
  | none => false
  | some n => n != 0

/-- Truthiness of a possibly undefined string: `undefined` and `''` are falsy. -/
def truthyStr : Option Str → Bool
  | none => false
  | some s => !s.isEmpty

/-- Rendering of a possibly undefined string inside a template literal. -/
def tplStr : Option Str → Str
  | none => "undefined".toList
  | some s => s

/-- The operand `x || ''` for a possibly undefined string. -/
def orEmpty : Option Str → Str
  | none => []
  | some s => s

/-- White space and line terminators of ECMAScript (`String.prototype.trim`,
and the leading blanks skipped by `parseInt`). -/
def isJsSpace (c : Char) : Bool :=
  let n := c.toNat
  n == 0x09 || n == 0x0A || n == 0x0B || n == 0x0C || n == 0x0D || n == 0x20 ||
  n == 0xA0 || n == 0x1680 || (0x2000 ≤ n && n ≤ 0x200A) || n == 0x2028 ||
  n == 0x2029 || n == 0x202F || n == 0x205F || n == 0x3000 || n == 0xFEFF

/-- Removal of leading white space. -/
def trimStart : Str → Str
  | [] => []
  | c :: cs => if isJsSpace c then trimStart cs else c :: cs

/-- Model of `String.prototype.trim`. -/
def trim (s : Str) : Str :=
  (trimStart (trimStart s).reverse).reverse

/-- Value of a digit in the given radix (10 or 16), if it is one. -/
def digitVal (radix : Nat) (c : Char) : Option Nat :=
  let n := c.toNat
  if 48 ≤ n ∧ n ≤ 57 then some (n - 48)
  else if radix = 16 ∧ 97 ≤ n ∧ n ≤ 102 then some (n - 87)
  else if radix = 16 ∧ 65 ≤ n ∧ n ≤ 70 then some (n - 55)
  else none

/-- Longest prefix of digits in the given radix, read left to right:
`none` when the prefix is empty, otherwise its value continuing from `acc`. -/
def readDigits (radix : Nat) : Str → Option Nat → Option Nat
  | [], acc => acc
  | c :: cs, acc =>
    match digitVal radix c with
    | none => acc
    | some d => readDigits radix cs (some (acc.getD 0 * radix + d))

/-- The unsigned part of `parseInt`: an optional `0x` / `0X` prefix selects
radix 16, then the longest digit prefix is read. -/
def parseUnsigned : Str → Option Nat
  | '0' :: 'x' :: rest => readDigits 16 rest none
  | '0' :: 'X' :: rest => readDigits 16 rest none
  | s => readDigits 10 s none

/-- Model of `parseInt(s)` without a radix argument: leading white space is
skipped, one sign is accepted, and `NaN` is returned when no digit follows. -/
def parseInt (s : Str) : JsNum :=
  match trimStart s with
  | '-' :: rest => (parseUnsigned rest).map (fun n => -(n : Int))
  | '+' :: rest => (parseUnsigned rest).map (fun n => (n : Int))
  | rest => (parseUnsigned rest).map (fun n => (n : Int))

/-- ASCII lower-casing of one character. -/
def lowerChar (c : Char) : Char :=
  if 65 ≤ c.toNat ∧ c.toNat ≤ 90 then Char.ofNat (c.toNat + 32) else c

/-- Model of `String.prototype.toLowerCase` on the characters that matter for
the search of an ASCII marker: ASCII capitals are lowered, U+212A (Kelvin sign)
becomes `k` and U+0130 becomes `i` followed by U+0307, as in ECMAScript; every
other character outside ASCII is left as it is (its lower-case form is never an
ASCII letter). -/
def toLowerCase : Str → Str
  | [] => []
  | c :: cs =>
    if c.toNat = 0x212A then 'k' :: toLowerCase cs
    else if c.toNat = 0x130 then 'i' :: Char.ofNat 0x307 :: toLowerCase cs
    else lowerChar c :: toLowerCase cs

/-- Whether `needle` is a prefix of `hay`. -/
def startsWith : Str → Str → Bool
  | _, [] => true
  | [], _ :: _ => false
  | h :: hs, n :: ns => h == n && startsWith hs ns

/-- Model of `String.prototype.includes`. -/
def includes : Str → Str → Bool
  | [], needle => needle.isEmpty
  | h :: hs, needle => startsWith (h :: hs) needle || includes hs needle

/-- Model of `String.prototype.split` with a one-character separator. -/
def split (sep : Char) : Str → List Str
  | [] => [[]]
  | c :: cs =>
    if c = sep then [] :: split sep cs
    else
      match split sep cs with
      | [] => [[c]]
      | p :: ps => (c :: p) :: ps

/-- Whether a character is an ASCII digit (the class `\d`). -/
def isDigit (c : Char) : Bool := 48 ≤ c.toNat && c.toNat ≤ 57

/-- Model of `s.match(/\/(\d+)$/)`: the first position holding a slash that is
followed by one or more digits up to the end of the string; the result is the
captured group. -/
def matchTrailingId : Str → Option Str
  | [] => none
  | c :: cs =>
    if c = '/' ∧ cs ≠ [] ∧ cs.all isDigit = true then some cs else matchTrailingId cs

/-- Model of `s.replace(/\n/g, '<br>')`. -/
def replaceNewlines : Str → Str
  | [] => []
  | c :: cs => if c = Char.ofNat 10 then "<br>".toList ++ replaceNewlines cs else c :: replaceNewlines cs

/-- Model of `s.indexOf('\0') !== -1`. -/
def hasNul (s : Str) : Bool := s.any (fun c => c.toNat == 0)

/-! ### `decodeURIComponent` -/

/-- Value of a hexadecimal digit. -/
def hexVal (c : Char) : Option Nat := digitVal 16 c

/-- The octet written as the two hexadecimal digits `a` `b`. -/
def hexByte (a b : Char) : Option Nat :=
  match hexVal a, hexVal b with
  | some x, some y => some (16 * x + y)
  | _, _ => none

/-- Reads `n` continuation groups `%XX`, each an octet `10xxxxxx`, accumulating
their payload bits into `acc`; `none` when a group is missing or malformed. -/
def readContinuation : Nat → Nat → Str → Option (Nat × Str)
  | 0, acc, s => some (acc, s)
  | n + 1, acc, '%' :: a :: b :: rest =>
    match hexByte a b with
    | some v => if 128 ≤ v ∧ v < 192 then readContinuation n (acc * 64 + (v - 128)) rest else none
    | none => none
  | _ + 1, _, _ => none

/-- Whether `cp`, assembled from a sequence of `len` octets, is the code point
of a well-formed UTF-8 sequence: shortest form, no surrogate, at most U+10FFFF. -/
def validScalar (len cp : Nat) : Bool :=
  (if len = 2 then 0x80 ≤ cp else if len = 3 then 0x800 ≤ cp else 0x10000 ≤ cp) &&
  cp ≤ 0x10FFFF && !(0xD800 ≤ cp && cp ≤ 0xDFFF)

/-- Decoding with fuel (the length of the input suffices): `none` is a
`URIError`. -/
def decodeAux : Nat → Str → Option Str
  | _, [] => some []
  | 0, _ :: _ => none
  | fuel + 1, '%' :: a :: b :: rest =>
    match hexByte a b with
    | none => none
    | some v =>
      if v < 128 then (decodeAux fuel rest).map (fun t => Char.ofNat v :: t)
      else if v < 192 then none
      else
        let len := if v < 224 then 2 else if v < 240 then 3 else if v < 248 then 4 else 5
        if len = 5 then none
        else
          let lead := if len = 2 then v - 192 else if len = 3 then v - 224 else v - 240
          match readContinuation (len - 1) lead rest with
          | none => none
          | some (cp, rest2) =>
            if validScalar len cp then (decodeAux fuel rest2).map (fun t => Char.ofNat cp :: t)
            else none
  | _ + 1, '%' :: _ => none
  | fuel + 1, c :: rest => (decodeAux fuel rest).map (fun t => c :: t)

/-- Model of `decodeURIComponent`: every `%XX` escape is replaced by the
character it encodes in UTF-8; `none` stands for the `URIError` raised on a
malformed escape. -/
def decodeURIComponent (s : Str) : Option Str := decodeAux s.length s


/-! ## Data returned by the platform

A field is optional exactly where the script tests for its absence. -/

/-- An `Error` object: only its `message` is ever read. -/
structure JsError where
  message : Str
deriving DecidableEq, Repr

/-- The `TypeError` of reading property `prop` of `undefined` (Node's wording). -/
def typeError (prop : String) : JsError :=
  ⟨"Cannot read properties of undefined (reading \x27".toList ++ prop.toList ++ "\x27)".toList⟩

/-- The `URIError` raised by `decodeURIComponent`. -/
def uriError : JsError := ⟨"URI malformed".toList⟩

/-- Answer of a remote call: a value, nothing (`null` / `undefined`), or an
exception. -/
inductive Reply (α : Type) where
  | value (a : α)
  | nothing
  | raises (e : JsError)
deriving DecidableEq, Repr

/-- Completion of a block of the script: normal, or abrupt by an exception. -/
inductive Res (α : Type) where
  | ok (a : α)
  | thrown (e : JsError)
deriving DecidableEq, Repr

structure Project where
  name : Str
deriving DecidableEq, Repr

structure Repository where
  id : Str
  project : Project
deriving DecidableEq, Repr

/-- Record answered by `getPullRequestById`. -/
structure PullRequest where
  title : Str
  repository : Repository
deriving DecidableEq, Repr

/-- One element of the answer of `getPullRequestIterations`. -/
structure Iteration where
  id : Int
deriving DecidableEq, Repr

structure Item where
  path : Str
  objectId : Str
  isFolder : Bool
deriving DecidableEq, Repr

/-- One change entry of an iteration. -/
structure ChangeEntry where
  item : Option Item
  changeType : Int
deriving DecidableEq, Repr

/-- Record answered by `getPullRequestIterationChanges`. -/
structure Changes where
  changeEntries : Option (List ChangeEntry)
deriving DecidableEq, Repr

/-- One element of the answer of `getPullRequestWorkItemRefs`. -/
structure WorkItemRef where
  url : Str
deriving DecidableEq, Repr

/-- One relation of a work item. -/
structure Relation where
  url : Option Str
deriving DecidableEq, Repr

/-- The fields of a work item read by the script. -/
structure Fields where
  title : Str
  description : Option Str
  acceptanceCriteria : Option Str
deriving DecidableEq, Repr

/-- Record answered by `getWorkItem`. -/
structure WorkItem where
  fields : Fields
  relations : Option (List Relation)
deriving DecidableEq, Repr

/-! ## Remote calls -/

/-- A remote call with its arguments, as recorded in the call log. -/
inductive Call where
  | connect
  | getPullRequestById (prId : JsNum)
  | getPullRequestIterations (repoId : Str) (prId : JsNum)
  | getPullRequestIterationChanges (repoId : Str) (prId : JsNum) (iterationId : Int)
  | getBlobContent (repoId objectId projectName : Str)
  | generateContent (prompt : Str)
  | getPullRequestWorkItemRefs (repoId : Str) (prId : JsNum)
  | getWorkItem (id : JsNum) (expandRelations : Bool)
  | updateWorkItem (path value : Str) (id : JsNum)
deriving DecidableEq, Repr

/-- The behaviour of the two remote services over a world state `σ`.
`connect` stands for the creation of the two API clients (lines 130-133);
`getBlobContent` stands for the fetch of the stream and its decoding by
`streamToString`; `generateContent` stands for the model call followed by
`result.response.text()`. -/
structure Services (σ : Type) where
  connect : σ → Option JsError × σ
  getPullRequestById : JsNum → σ → Reply PullRequest × σ
  getPullRequestIterations : Str → JsNum → σ → Reply (List Iteration) × σ
  getPullRequestIterationChanges : Str → JsNum → Int → σ → Reply Changes × σ
  getBlobContent : Str → Str → Str → σ → Reply Str × σ
  generateContent : Str → σ → Reply Str × σ
  getPullRequestWorkItemRefs : Str → JsNum → σ → Reply (List WorkItemRef) × σ
  getWorkItem : JsNum → Bool → σ → Reply WorkItem × σ
  updateWorkItem : Str → Str → JsNum → σ → Option JsError × σ

/-- The world seen by a run: the state of the services and the calls made so
far, oldest first. -/
structure World (σ : Type) where
  state : σ
  calls : List Call
deriving DecidableEq, Repr

/-- Performs one remote call: the service answers from the current state, the
state advances and the call is logged. -/
def call {σ ρ : Type} (c : Call) (f : σ → ρ × σ) (w : World σ) : ρ × World σ :=
  ((f w.state).1, ⟨(f w.state).2, w.calls ++ [c]⟩)

/-! ## `analisarPR` -/

/-- Fragment of line 35. -/
def notFoundFragment (prId : JsNum) : Str :=
  "<p style=\"color:red\">Erro: PR #".toList ++ numToStr prId ++
    " não encontrado/inacessível.</p>".toList

/-- Fragment of line 47. -/
def noIterationFragment (prId : JsNum) (prTitle : Str) : Str :=
  "<h3>PR #".toList ++ numToStr prId ++ ": ".toList ++ prTitle ++
    "</h3><p><em>Nenhuma iteração encontrada.</em></p><hr>".toList

/-- Fragment of line 85. -/
def noCodeFragment (prId : JsNum) (prTitle : Str) : Str :=
  "<h3>PR #".toList ++ numToStr prId ++ ": ".toList ++ prTitle ++
    "</h3><p><em>Nenhum código legível.</em></p><hr>".toList

/-- Fragment of lines 111-116. -/
def verdictFragment (prId : JsNum) (prTitle analise : Str) : Str :=
  "\n        <div style=\"margin-bottom: 20px; border-bottom: 1px solid #ccc; padding-bottom: 10px;\">\n            <h3>Análise PR #".toList
    ++ numToStr prId ++ ": ".toList ++ prTitle ++ "</h3>\n            ".toList
    ++ replaceNewlines analise ++ "\n        </div>\n        ".toList

/-- Fragment of line 120. -/
def errorFragment (prId : JsNum) (message : Str) : Str :=
  "<p style=\"color:red\">Erro ao analisar PR #".toList ++ numToStr prId ++ ": ".toList ++
    message ++ "</p>".toList

/-- File-boundary marker of line 74. -/
def fileMarker (path : Str) : Str :=
  "\n--- ARQUIVO: ".toList ++ path ++ " ---\n".toList

/-- Prompt of lines 93-106. -/
def prompt (requirementsText codeContext : Str) : Str :=
  "\n        Você é um Tech Lead. Analise este PR.\n        CONTEXTO DO CARD: ".toList
    ++ requirementsText ++ "\n        CÓDIGO DESTE PR: ".toList ++ codeContext ++
  "\n        \n        INSTRUÇÕES:\n        1. Verifique se o código atende à DESCRIÇÃO e CRITÉRIOS DE ACEITE.\n        2. Ignore estilo, foque na REGRA DE NEGÓCIO.\n        3. Ignore questões técnicas que não impactam a regra de negócio.\n        4. Indique se faltar algo mas que possa estar em outro PR.\n        5. Diga se foi APROVADO ou REPROVADO.\n        6. Se estiver tudo certo, responda com o motivo da aprovação.\n        7. Se faltar algo, liste objetivamente.\n        ".toList

/-- The loop of lines 56-81 over the change entries, `codeContext` being the
accumulator. An entry without item, a delete (`changeType === 16`) or a folder
is passed over; otherwise the blob is fetched, and its text is appended after
the file marker unless it holds a NUL; a fetch that raises (or yields no
stream, which makes `streamToString` raise) is caught by the inner `catch`. -/
def collectContext {σ : Type} (S : Services σ) (repoId projectName : Str) :
    List ChangeEntry → Str → World σ → Str × World σ
  | [], codeContext, w => (codeContext, w)
  | entry :: rest, codeContext, w =>
    match entry.item with
    | none => collectContext S repoId projectName rest codeContext w
    | some itemData =>
      if entry.changeType = 16 ∨ itemData.isFolder = true then
        collectContext S repoId projectName rest codeContext w
      else
        match call (.getBlobContent repoId itemData.objectId projectName)
            (S.getBlobContent repoId itemData.objectId projectName) w with
        | (.value contentText, w1) =>
          if hasNul contentText = true then
            collectContext S repoId projectName rest codeContext w1
          else
            collectContext S repoId projectName rest
              ((codeContext ++ fileMarker itemData.path) ++ (contentText ++ [Char.ofNat 10])) w1
        | (.nothing, w1) => collectContext S repoId projectName rest codeContext w1
        | (.raises _, w1) => collectContext S repoId projectName rest codeContext w1

/-- What lines 31-86 leave: a fragment already returned, or the title and the
non-empty code context to be sent to the generation service. -/
inductive Aggregated where
  | returned (fragment : Str)
  | context (prTitle codeContext : Str)
deriving DecidableEq, Repr

/-- Lines 53-86 once the changes call has answered: the context is collected
from the entries when `changes && changes.changeEntries` holds, and an empty
context gives the placeholder of line 85. -/
def contextOf {σ : Type} (S : Services σ) (prId : JsNum) (pr : PullRequest)
    (changes : Option Changes) (w : World σ) : Res Aggregated × World σ :=
  let r : Str × World σ :=
    match changes with
    | none => ([], w)
    | some ch =>
      match ch.changeEntries with
      | none => ([], w)
      | some entries => collectContext S pr.repository.id pr.repository.project.name entries [] w
  if r.1.isEmpty then (.ok (.returned (noCodeFragment prId pr.title)), r.2)
  else (.ok (.context pr.title r.1), r.2)

/-- Lines 31-86 of `analisarPR`: metadata, iterations, changes of the last
iteration of the list, code context. -/
def aggregate {σ : Type} (S : Services σ) (prId : JsNum) (w : World σ) :
    Res Aggregated × World σ :=
  match call (.getPullRequestById prId) (S.getPullRequestById prId) w with
  | (.raises e, w1) => (.thrown e, w1)
  | (.nothing, w1) => (.ok (.returned (notFoundFragment prId)), w1)
  | (.value prDetails, w1) =>
    let repoId := prDetails.repository.id
    match call (.getPullRequestIterations repoId prId) (S.getPullRequestIterations repoId prId) w1 with
    | (.raises e, w2) => (.thrown e, w2)
    | (.nothing, w2) => (.ok (.returned (noIterationFragment prId prDetails.title)), w2)
    | (.value diffs, w2) =>
      match diffs.getLast? with
      | none => (.ok (.returned (noIterationFragment prId prDetails.title)), w2)
      | some last =>
        match call (.getPullRequestIterationChanges repoId prId last.id)
            (S.getPullRequestIterationChanges repoId prId last.id) w2 with
        | (.raises e, w3) => (.thrown e, w3)
        | (.nothing, w3) => contextOf S prId prDetails none w3
        | (.value changes, w3) => contextOf S prId prDetails (some changes) w3

/-- The `try` block of `analisarPR` (lines 31-116). -/
def analisarPRTry {σ : Type} (S : Services σ) (prId : JsNum) (requirementsText : Str)
    (w : World σ) : Res Str × World σ :=
  match aggregate S prId w with
  | (.thrown e, w1) => (.thrown e, w1)
  | (.ok (.returned fragment), w1) => (.ok fragment, w1)
  | (.ok (.context prTitle codeContext), w1) =>
    match call (.generateContent (prompt requirementsText codeContext))
        (S.generateContent (prompt requirementsText codeContext)) w1 with
    | (.raises e, w2) => (.thrown e, w2)
    | (.nothing, w2) => (.thrown (typeError "response"), w2)
    | (.value analise, w2) => (.ok (verdictFragment prId prTitle analise), w2)

/-- `analisarPR` (lines 27-122): the `try` block, and the `catch` of lines
118-121 turning any exception into the error fragment. -/
def analisarPR {σ : Type} (S : Services σ) (prId : JsNum) (requirementsText : Str)
    (w : World σ) : Res Str × World σ :=
  match analisarPRTry S prId requirementsText w with
  | (.ok fragment, w1) => (.ok fragment, w1)
  | (.thrown error, w1) => (.ok (errorFragment prId error.message), w1)

/-! ## `main` -/

/-- The environment variables read at lines 8-10. -/
structure Config where
  ADO_PAT : Option Str
  GOOGLE_API_KEY : Option Str
  FIELD_UPDATE_ANALYSIS : Option Str
deriving DecidableEq, Repr

/-- The two answers of the operator and the text of `new Date().toLocaleString()`. -/
structure Input where
  modeInput : Str
  idInput : Str
  now : Str
deriving DecidableEq, Repr

/-- How a run of `main` ends. -/
inductive Outcome where
  /-- Line 127: `process.exit(1)`. -/
  | missingCredentials
  /-- Line 143: "ID inválido." and `process.exit(1)`. -/
  | invalidId
  /-- Lines 155-156: "Nenhum Card vinculado a este PR." and `return`. -/
  | notLinked
  /-- Lines 196-197: "Nenhum PR encontrado. ..." and `return`. -/
  | noLinkedPRs
  /-- Lines 230-232: "Erro fatal:" printed by the `catch`; `main` then returns. -/
  | fatal (error : JsError)
  /-- Line 229: "Sucesso! Card ... atualizado.". -/
  | updated (wiId : JsNum) (report : Str)
deriving DecidableEq, Repr

/-- The exit code of the process: `1` where `process.exit(1)` is called, `0`
where `main` returns (nothing else sets an exit code). -/
def Outcome.exitCode : Outcome → Nat
  | .missingCredentials => 1
  | .invalidId => 1
  | .notLinked => 0
  | .noLinkedPRs => 0
  | .fatal _ => 0
  | .updated _ _ => 0

/-- `Set.prototype.add` on a set kept in insertion order. -/
def setAdd (s : List JsNum) (x : JsNum) : List JsNum :=
  if x ∈ s then s else s ++ [x]

/-- The marker searched at line 174. -/
def prMarker : Str := "pullrequestid".toList

/-- The test of lines 172-174: the lower-cased URL (or `''` when the relation
has none) includes the marker. -/
def isPrRelation (rel : Relation) : Bool :=
  includes (if truthyStr rel.url then toLowerCase (orEmpty rel.url) else []) prMarker

/-- Lines 185-189, the branch taken when the pattern does not match: the last
part of the URL split at slashes is added when `parseInt` of it is not `NaN`. -/
def fallbackId (decodedUrl : Str) : Option JsNum :=
  match (split '/' decodedUrl).getLast? with
  | some lastPart => if (parseInt lastPart).isNone then none else some (parseInt lastPart)
  | none => none

/-- Lines 178-190 on the decoded URL: the number to add to the set, if any.
The test `match && match[1]` takes the first branch when the pattern matched
with a non-empty group. -/
def extractId (decodedUrl : Str) : Option JsNum :=
  match matchTrailingId decodedUrl with
  | some digits => if digits.isEmpty then fallbackId decodedUrl else some (parseInt digits)
  | none => fallbackId decodedUrl

/-- The callback of `forEach` (lines 171-192) on one relation: the set after
the relation, or the `URIError` of `decodeURIComponent`. -/
def relationStep (prsParaAnalisar : List JsNum) (rel : Relation) : Res (List JsNum) :=
  if isPrRelation rel = true then
    match decodeURIComponent (tplStr rel.url) with
    | none => .thrown uriError
    | some decodedUrl =>
      match extractId decodedUrl with
      | some foundId => .ok (setAdd prsParaAnalisar foundId)
      | none => .ok prsParaAnalisar
  else .ok prsParaAnalisar

/-- The `forEach` of lines 171-192: relations are visited in order and an
exception leaves the loop. -/
def scanRelations : List Relation → List JsNum → Res (List JsNum)
  | [], prsParaAnalisar => .ok prsParaAnalisar
  | rel :: rest, prsParaAnalisar =>
    match relationStep prsParaAnalisar rel with
    | .thrown e => .thrown e
    | .ok next => scanRelations rest next

/-- Result of link resolution: nothing to analyse, or the work item and the
list `Array.from(prsParaAnalisar)`. -/
inductive Resolved where
  | nothingToDo
  | workSet (wiId : JsNum) (listaPrs : List JsNum)
deriving DecidableEq, Repr

/-- PR mode, lines 150-159. -/
def resolvePR {σ : Type} (S : Services σ) (ID : JsNum) (w : World σ) : Res Resolved × World σ :=
  match call (.getPullRequestById ID) (S.getPullRequestById ID) w with
  | (.raises e, w1) => (.thrown e, w1)
  | (.nothing, w1) => (.thrown (typeError "repository"), w1)
  | (.value pr, w1) =>
    match call (.getPullRequestWorkItemRefs pr.repository.id ID)
        (S.getPullRequestWorkItemRefs pr.repository.id ID) w1 with
    | (.raises e, w2) => (.thrown e, w2)
    | (.nothing, w2) => (.ok .nothingToDo, w2)
    | (.value [], w2) => (.ok .nothingToDo, w2)
    | (.value (ref :: _), w2) =>
      (.ok (.workSet (match (split '/' ref.url).getLast? with
                      | some last => parseInt last
                      | none => none) (setAdd [] ID)), w2)

/-- Card mode, lines 163-198. -/
def resolveCard {σ : Type} (S : Services σ) (ID : JsNum) (w : World σ) : Res Resolved × World σ :=
  match call (.getWorkItem ID true) (S.getWorkItem ID true) w with
  | (.raises e, w1) => (.thrown e, w1)
  | (.nothing, w1) => (.thrown (typeError "relations"), w1)
  | (.value workItemCheck, w1) =>
    match (match workItemCheck.relations with
           | some relations => scanRelations relations []
           | none => .ok []) with
    | .thrown e => (.thrown e, w1)
    | .ok prsParaAnalisar =>
      if prsParaAnalisar.length = 0 then (.ok .nothingToDo, w1)
      else (.ok (.workSet ID prsParaAnalisar), w1)

/-- Line 207. -/
def requirementsOf (workItem : WorkItem) : Str :=
  "TÍTULO: ".toList ++ workItem.fields.title ++ "\nDESCRIÇÃO: ".toList ++
    orEmpty (if truthyStr workItem.fields.description then workItem.fields.description else none) ++
    "\nCRITÉRIOS: ".toList ++
    orEmpty (if truthyStr workItem.fields.acceptanceCriteria then workItem.fields.acceptanceCriteria else none)

/-- Line 209. -/
def reportHeader (inp : Input) : Str :=
  "<h2>Relatório Gemini AI (".toList ++
    (if trim inp.modeInput = "1".toList then "PR Único".toList else "Completo".toList) ++
    ")</h2><p>Data: ".toList ++ inp.now ++ "</p><hr>".toList

/-- The loop of lines 213-216, `relatorioFinal` being the accumulator. -/
def composeReport {σ : Type} (S : Services σ) (requirementsText : Str) :
    List JsNum → Str → World σ → Res Str × World σ
  | [], relatorioFinal, w => (.ok relatorioFinal, w)
  | prId :: rest, relatorioFinal, w =>
    match analisarPR S prId requirementsText w with
    | (.thrown e, w1) => (.thrown e, w1)
    | (.ok analiseHTML, w1) => composeReport S requirementsText rest (relatorioFinal ++ analiseHTML) w1

/-- The path of the patch operation, line 223. -/
def fieldPath (cfg : Config) : Str := "/fields/".toList ++ tplStr cfg.FIELD_UPDATE_ANALYSIS

/-- Lines 201-229: requirements, report, update. -/
def analyseAndUpdate {σ : Type} (cfg : Config) (inp : Input) (S : Services σ) (wiId : JsNum)
    (listaPrs : List JsNum) (w : World σ) : Res Outcome × World σ :=
  match call (.getWorkItem wiId false) (S.getWorkItem wiId false) w with
  | (.raises e, w1) => (.thrown e, w1)
  | (.nothing, w1) => (.thrown (typeError "fields"), w1)
  | (.value workItem, w1) =>
    match composeReport S (requirementsOf workItem) listaPrs (reportHeader inp) w1 with
    | (.thrown e, w2) => (.thrown e, w2)
    | (.ok relatorioFinal, w2) =>
      match call (.updateWorkItem (fieldPath cfg) relatorioFinal wiId)
          (S.updateWorkItem (fieldPath cfg) relatorioFinal wiId) w2 with
      | (some e, w3) => (.thrown e, w3)
      | (none, w3) => (.ok (.updated wiId relatorioFinal), w3)

/-- The `try` block of `main` (lines 130-229). -/
def mainTry {σ : Type} (cfg : Config) (inp : Input) (S : Services σ) (w : World σ) :
    Res Outcome × World σ :=
  match call .connect S.connect w with
  | (some e, w0) => (.thrown e, w0)
  | (none, w0) =>
    let ID := parseInt (trim inp.idInput)
    if truthyNum ID = false then (.ok .invalidId, w0)
    else if trim inp.modeInput = "1".toList then
      match resolvePR S ID w0 with
      | (.thrown e, w1) => (.thrown e, w1)
      | (.ok .nothingToDo, w1) => (.ok .notLinked, w1)
      | (.ok (.workSet wiId listaPrs), w1) => analyseAndUpdate cfg inp S wiId listaPrs w1
    else
      match resolveCard S ID w0 with
      | (.thrown e, w1) => (.thrown e, w1)
      | (.ok .nothingToDo, w1) => (.ok .noLinkedPRs, w1)
      | (.ok (.workSet wiId listaPrs), w1) => analyseAndUpdate cfg inp S wiId listaPrs w1

/-- The `catch` of `main` (lines 230-232): an exception leaving the `try`
block is printed after "Erro fatal:" and `main` returns. -/
def catchFatal {σ : Type} : Res Outcome × World σ → Outcome × World σ
  | (.ok outcome, w1) => (outcome, w1)
  | (.thrown error, w1) => (.fatal error, w1)

/-- `main` (lines 124-233): the credential test, then the `try` block under
its `catch`. -/
def main {σ : Type} (cfg : Config) (inp : Input) (S : Services σ) (w : World σ) :
    Outcome × World σ :=
  if truthyStr cfg.ADO_PAT = false ∨ truthyStr cfg.GOOGLE_API_KEY = false then
    (.missingCredentials, w)
  else catchFatal (mainTry cfg inp S w)

/-! ## Reference descriptions used by the statements -/

/-- The invocations of `analisarPR` made for a work list, one per PR id and in
the order of the list, each starting in the world left by the previous one:
the result of every invocation together with the world it leaves. -/
def runEach {σ : Type} (S : Services σ) (requirementsText : Str) :
    List JsNum → World σ → List (Res Str × World σ)
  | [], _ => []
  | prId :: rest, w =>
    analisarPR S prId requirementsText w ::
      runEach S requirementsText rest (analisarPR S prId requirementsText w).2

/-- The world left by a sequence of invocations started in `w`. -/
def worldAfter {σ : Type} (w : World σ) : List (Res Str × World σ) → World σ
  | [] => w
  | r :: runs => worldAfter r.2 runs

/-- The fragment returned by an invocation. -/
def fragmentText : Res Str → Str
  | .ok fragment => fragment
  | .thrown _ => []

/-- The renderings of one PR in the report, each tagged with the id of the PR:
not found (line 35), no iteration (line 47), no readable code (line 85), the
verdict with every line feed of the analysis turned into `<br>` (lines
111-116), or a caught error with its message (line 120). -/
def isFragmentFor (prId : JsNum) (fragment : Str) : Prop :=
  fragment = "<p style=\"color:red\">Erro: PR #".toList ++ numToStr prId ++
    " não encontrado/inacessível.</p>".toList ∨
  (∃ prTitle : Str, fragment = "<h3>PR #".toList ++ numToStr prId ++ ": ".toList ++ prTitle ++
    "</h3><p><em>Nenhuma iteração encontrada.</em></p><hr>".toList) ∨
  (∃ prTitle : Str, fragment = "<h3>PR #".toList ++ numToStr prId ++ ": ".toList ++ prTitle ++
    "</h3><p><em>Nenhum código legível.</em></p><hr>".toList) ∨
  (∃ prTitle analise : Str, fragment =
    "\n        <div style=\"margin-bottom: 20px; border-bottom: 1px solid #ccc; padding-bottom: 10px;\">\n            <h3>Análise PR #".toList
      ++ numToStr prId ++ ": ".toList ++ prTitle ++ "</h3>\n            ".toList
      ++ replaceNewlines analise ++ "\n        </div>\n        ".toList) ∨
  (∃ message : Str, fragment = "<p style=\"color:red\">Erro ao analisar PR #".toList ++
    numToStr prId ++ ": ".toList ++ message ++ "</p>".toList)

/-- An entry is read when it has an item, its change type is not the delete
value 16 and its item is not a folder; the item is then the one fetched. -/
def fetchedItem (entry : ChangeEntry) : Option Item :=
  match entry.item with
  | some item => if entry.changeType ≠ 16 ∧ item.isFolder = false then some item else none
  | none => none

/-- The blob fetches made for a list of entries starting in state `s`: for
every entry that is read, in the order of the list, its item and the answer of
the fetch; and the state left by the last fetch. -/
def fetches {σ : Type} (S : Services σ) (repoId projectName : Str) :
    List ChangeEntry → σ → List (Item × Reply Str) × σ
  | [], s => ([], s)
  | entry :: rest, s =>
    match fetchedItem entry with
    | none => fetches S repoId projectName rest s
    | some item =>
      ((item, (S.getBlobContent repoId item.objectId projectName s).1) ::
          (fetches S repoId projectName rest
            (S.getBlobContent repoId item.objectId projectName s).2).1,
        (fetches S repoId projectName rest
            (S.getBlobContent repoId item.objectId projectName s).2).2)

/-- The piece of context contributed by one fetch: the file marker, the text
and a line feed when the fetch succeeded with a text free of NUL, nothing
otherwise. -/
def readablePiece : Item × Reply Str → Option Str
  | (item, .value text) =>
    if hasNul text = true then none else some (fileMarker item.path ++ text ++ [Char.ofNat 10])
  | (_, .nothing) => none
  | (_, .raises _) => none

/-- The concatenation, in the order of the entries, of the pieces of the
readable files. -/
def expectedContext {σ : Type} (S : Services σ) (repoId projectName : Str)
    (entries : List ChangeEntry) (s : σ) : Str :=
  ((fetches S repoId projectName entries s).1.filterMap readablePiece).flatten

/-- The call logged for the fetch of an item. -/
def blobCall (repoId projectName : Str) (p : Item × Reply Str) : Call :=
  Call.getBlobContent repoId p.1.objectId projectName

/-- The entries carried by the answer of the changes call, none when the
answer or its entry list is absent. -/
def entriesOf : Reply Changes → List ChangeEntry
  | .value ⟨some entries⟩ => entries
  | _ => []

/-- A pattern on which lower-casing cannot manufacture a match: it holds no
`k`, and every `i` in it is followed by a character other than U+0307. -/
def lowerSafe : Str → Bool
  | [] => true
  | a :: t =>
    a != 'k' &&
    (a != 'i' || (match t with
                  | [] => false
                  | b :: _ => b != Char.ofNat 0x307)) &&
    lowerSafe t

/-! ## Scenarios used to exercise the definitions -/

namespace Scenario

/-- Work item 500 links pull requests 42 and 43 and a child work item. Pull
request 42 has iterations 1 and 2, the second changing `a.txt` (text `hello`)
and `b.bin` (bytes with a NUL); pull request 43 has one iteration changing
`c.txt`. The state counts the generation calls: the first one answers, every
later one raises. -/
def services : Services Nat where
  connect := fun n => (none, n)
  getPullRequestById := fun prId n =>
    if prId = some 42 then (.value ⟨"Add rule".toList, ⟨"repo".toList, ⟨"proj".toList⟩⟩⟩, n)
    else if prId = some 43 then (.value ⟨"Fix rule".toList, ⟨"repo".toList, ⟨"proj".toList⟩⟩⟩, n)
    else (.nothing, n)
  getPullRequestIterations := fun _ prId n =>
    if prId = some 42 then (.value [⟨1⟩, ⟨2⟩], n) else (.value [⟨1⟩], n)
  getPullRequestIterationChanges := fun _ prId it n =>
    if prId = some 42 ∧ it = 2 then
      (.value ⟨some [⟨some ⟨"a.txt".toList, "x".toList, false⟩, 2⟩,
                     ⟨some ⟨"b.bin".toList, "y".toList, false⟩, 2⟩]⟩, n)
    else if prId = some 43 then
      (.value ⟨some [⟨some ⟨"c.txt".toList, "z".toList, false⟩, 1⟩]⟩, n)
    else (.value ⟨some []⟩, n)
  getBlobContent := fun _ objectId _ n =>
    if objectId = "x".toList then (.value "hello".toList, n)
    else if objectId = "y".toList then (.value [Char.ofNat 1, Char.ofNat 0, Char.ofNat 2], n)
    else if objectId = "z".toList then (.value "bye".toList, n)
    else (.raises ⟨"not found".toList⟩, n)
  generateContent := fun _ n =>
    if n = 0 then (.value "APROVADO\nTudo certo.".toList, n + 1)
    else (.raises ⟨"quota".toList⟩, n + 1)
  getPullRequestWorkItemRefs := fun _ _ n => (.value [⟨"https://ado/_apis/wit/workItems/500".toList⟩], n)
  getWorkItem := fun _ _ n =>
    (.value ⟨⟨"Rule".toList, some "Do it".toList, none⟩,
      some [⟨some "vstfs:///Git/PullRequestId/p%2Fr%2F42".toList⟩,
            ⟨some "https://ado/_apis/wit/workItems/9".toList⟩,
            ⟨some "vstfs:///Git/PullRequestId/p%2Fr%2F43".toList⟩]⟩, n)
  updateWorkItem := fun _ _ _ n => (none, n)

/-- The relations of the work item 500 of the specification's scenario. -/
def specRelations : List Relation :=
  [⟨some ".../pullRequestId/42".toList⟩, ⟨some ".../workItems/9".toList⟩]

/-- A pull-request link, and the same link with the `I` of the marker written
as the escape `%49`. -/
def plainUrl : Str := "vstfs:///Git/PullRequestId/42".toList

/-- The re-encoded form of `plainUrl`. -/
def encodedUrl : Str := "vstfs:///Git/PullRequest%49d/42".toList

/-- A work item whose second pull-request link carries a malformed escape. -/
def malformedRelations : List Relation :=
  [⟨some "vstfs:///Git/PullRequestId/42".toList⟩, ⟨some "vstfs:///Git/PullRequestId/%zz".toList⟩]

/-- The services of the scenario with the relations of the work item replaced. -/
def servicesWith (relations : List Relation) : Services Nat :=
  { services with
    getWorkItem := fun _ _ n => (.value ⟨⟨"Rule".toList, some "Do it".toList, none⟩, some relations⟩, n) }

/-- The record of pull request 42. -/
def pr42 : PullRequest := ⟨"Add rule".toList, ⟨"repo".toList, ⟨"proj".toList⟩⟩⟩

/-- The change entries of iteration 2 of pull request 42. -/
def entries42 : List ChangeEntry :=
  [⟨some ⟨"a.txt".toList, "x".toList, false⟩, 2⟩, ⟨some ⟨"b.bin".toList, "y".toList, false⟩, 2⟩]

/-- The work item answered by `services`. -/
def workItem500 : WorkItem :=
  ⟨⟨"Rule".toList, some "Do it".toList, none⟩,
    some [⟨some "vstfs:///Git/PullRequestId/p%2Fr%2F42".toList⟩,
          ⟨some "https://ado/_apis/wit/workItems/9".toList⟩,
          ⟨some "vstfs:///Git/PullRequestId/p%2Fr%2F43".toList⟩]⟩

/-- The same pull request linked twice, with escaped and with plain slashes. -/
def duplicateRelations : List Relation :=
  [⟨some "vstfs:///Git/PullRequestId/p%2Fr%2F42".toList⟩,
   ⟨some "vstfs:///Git/pullrequestid/p/r/42".toList⟩]

/-- Every blob is binary. -/
def binaryServices : Services Nat :=
  { services with getBlobContent := fun _ _ _ n => (.value [Char.ofNat 0], n) }

/-- Pull request 7 exists and has no work-item reference. -/
def unlinkedServices : Services Nat :=
  { services with
    getPullRequestById := fun _ n => (.value ⟨"Lone".toList, ⟨"repo".toList, ⟨"proj".toList⟩⟩⟩, n)
    getPullRequestWorkItemRefs := fun _ _ n => (.value [], n) }

/-- The final update is refused. -/
def refusingServices : Services Nat :=
  { services with updateWorkItem := fun _ _ _ n => (some ⟨"denied".toList⟩, n) }

/-- The work item is returned with its relations, but the later fetch of its
fields raises. -/
def offlineServices : Services Nat :=
  { services with
    getWorkItem := fun _ expand n =>
      if expand = true then (.value workItem500, n) else (.raises ⟨"offline".toList⟩, n) }

/-- PR mode on pull request 7. -/
def prInput : Input := ⟨"1".toList, "7".toList, "today".toList⟩

/-- Card mode with the identifier `-5`. -/
def negativeInput : Input := ⟨"2".toList, "-5".toList, "today".toList⟩

/-- Card mode with the identifier `0`. -/
def zeroInput : Input := ⟨"2".toList, "0".toList, "today".toList⟩

/-- Credentials and target field. -/
def config : Config := ⟨some "pat".toList, some "key".toList, some "Custom.Analysis".toList⟩

/-- Card mode on work item 500. -/
def cardInput : Input := ⟨"2".toList, "500".toList, "today".toList⟩

/-- The world before the run. -/
def start : World Nat := ⟨0, []⟩

end Scenario

end AzureValidator


namespace AzureValidator

/-! ## The decoder -/

theorem readContinuation_length (k acc : Nat) (s r : Str) (cp : Nat)
    (h : readContinuation k acc s = some (cp, r)) : r.length ≤ s.length := by
  induction k generalizing acc s with
  | zero =>
    simp only [readContinuation, Option.some.injEq, Prod.mk.injEq] at h
    rw [h.2]
  | succ n ih =>
    unfold readContinuation at h
    split at h
    · rename_i h0
      exact absurd h0 (Nat.succ_ne_zero n)
    · rename_i a b rest h0
      cases h0
      cases hb : hexByte a b with
      | none => simp [hb] at h
      | some v =>
        simp only [hb] at h
        split at h
        · have := ih _ _ h
          simp only [List.length_cons]
          omega
        · cases h
    · cases h

/-- The fuel of the decoder never runs out: any two amounts of fuel that are at
least the length of the input give the same result. -/
theorem decodeAux_fuel (n m : Nat) (s : Str) (hn : s.length ≤ n) (hm : s.length ≤ m) :
    decodeAux n s = decodeAux m s := by
  induction n generalizing m s with
  | zero =>
    cases s with
    | nil => cases m <;> rfl
    | cons c cs => simp at hn
  | succ n ih =>
    cases s with
    | nil => cases m <;> rfl
    | cons c cs =>
      cases m with
      | zero => simp at hm
      | succ m =>
        simp only [List.length_cons, Nat.add_le_add_iff_right] at hn hm
        by_cases hc : c = '%'
        · subst hc
          cases cs with
          | nil => rfl
          | cons a r1 =>
            cases r1 with
            | nil => rfl
            | cons b r2 =>
              simp only [List.length_cons] at hn hm
              simp only [decodeAux]
              cases hexByte a b with
              | none => rfl
              | some v =>
                simp only
                by_cases h1 : v < 128
                · simp only [h1, if_true]
                  rw [ih m r2 (by omega) (by omega)]
                · by_cases h2 : v < 192
                  · simp only [h1, h2, if_true, if_false]
                  · simp only [h1, h2, if_false]
                    generalize (if v < 224 then 2 else if v < 240 then 3
                      else if v < 248 then 4 else 5) = len
                    split
                    · rfl
                    · cases hr : readContinuation (len - 1)
                          (if len = 2 then v - 192 else if len = 3 then v - 224 else v - 240) r2 with
                      | none => rfl
                      | some p =>
                        obtain ⟨cp, rest2⟩ := p
                        have hl := readContinuation_length _ _ _ _ _ hr
                        simp only
                        split
                        · rw [ih m rest2 (by omega) (by omega)]
                        · rfl
        · have e1 : ∀ k, decodeAux (k + 1) (c :: cs) = (decodeAux k cs).map (fun t => c :: t) := by
            intro k
            rw [decodeAux]
            · intro a b rest h _
              exact hc h
            · intro h
              exact hc h
          rw [e1, e1, ih m cs hn hm]

theorem decodeURIComponent_fuel (n : Nat) (s : Str) (h : s.length ≤ n) :
    decodeAux n s = decodeURIComponent s :=
  decodeAux_fuel n s.length s h (Nat.le_refl _)

/-! ## Failure isolation and report composition -/

theorem analisarPR_returns {σ : Type} (S : Services σ) (prId : JsNum) (req : Str) (w : World σ) :
    ∃ fragment, (analisarPR S prId req w).1 = Res.ok fragment := by
  unfold analisarPR
  split
  · exact ⟨_, rfl⟩
  · exact ⟨_, rfl⟩

theorem runEach_length {σ : Type} (S : Services σ) (req : Str) (prIds : List JsNum) (w : World σ) :
    (runEach S req prIds w).length = prIds.length := by
  induction prIds generalizing w with
  | nil => rfl
  | cons p rest ih => simp [runEach, ih]

theorem worldAfter_cons {σ : Type} (w : World σ) (r : Res Str × World σ)
    (runs : List (Res Str × World σ)) :
    worldAfter w (r :: runs) = worldAfter r.2 runs := rfl

theorem composeReport_eq {σ : Type} (S : Services σ) (req : Str) (prIds : List JsNum)
    (acc : Str) (w : World σ) :
    composeReport S req prIds acc w =
      (Res.ok (acc ++ ((runEach S req prIds w).map (fun r => fragmentText r.1)).flatten),
        worldAfter w (runEach S req prIds w)) := by
  induction prIds generalizing acc w with
  | nil => simp [composeReport, runEach, worldAfter]
  | cons p rest ih =>
    obtain ⟨f, hf⟩ := analisarPR_returns S p req w
    rw [composeReport, runEach, worldAfter_cons]
    generalize analisarPR S p req w = r at hf ⊢
    obtain ⟨r1, r2⟩ := r
    simp only at hf
    subst hf
    simp [ih, fragmentText]

theorem analisarPR_verdict {σ : Type} (S : Services σ) (prId : JsNum) (req : Str)
    (w w1 : World σ) (prTitle codeContext analise : Str) (s2 : σ)
    (hagg : aggregate S prId w = (Res.ok (Aggregated.context prTitle codeContext), w1))
    (hgen : S.generateContent (prompt req codeContext) w1.state = (Reply.value analise, s2)) :
    analisarPR S prId req w =
      (Res.ok (verdictFragment prId prTitle analise),
        ⟨s2, w1.calls ++ [Call.generateContent (prompt req codeContext)]⟩) := by
  simp [analisarPR, analisarPRTry, hagg, call, hgen]

theorem analisarPR_generation_raises {σ : Type} (S : Services σ) (prId : JsNum) (req : Str)
    (w w1 : World σ) (prTitle codeContext : Str) (e : JsError) (s2 : σ)
    (hagg : aggregate S prId w = (Res.ok (Aggregated.context prTitle codeContext), w1))
    (hgen : S.generateContent (prompt req codeContext) w1.state = (Reply.raises e, s2)) :
    analisarPR S prId req w =
      (Res.ok (errorFragment prId e.message),
        ⟨s2, w1.calls ++ [Call.generateContent (prompt req codeContext)]⟩) := by
  simp [analisarPR, analisarPRTry, hagg, call, hgen]

theorem append_ne_nil_of_left {α : Type} (a b : List α) (h : a ≠ []) : a ++ b ≠ [] := by
  cases a with
  | nil => exact absurd rfl h
  | cons x t => simp

theorem isFragmentFor_ne_nil (prId : JsNum) (fragment : Str)
    (h : isFragmentFor prId fragment) : fragment ≠ [] := by
  rcases h with h | ⟨t, h⟩ | ⟨t, h⟩ | ⟨t, a, h⟩ | ⟨m, h⟩ <;>
    · rw [h]
      repeat apply append_ne_nil_of_left
      decide

theorem contextOf_shape {σ : Type} (S : Services σ) (prId : JsNum) (pr : PullRequest)
    (changes : Option Changes) (w : World σ) :
    (contextOf S prId pr changes w).1 =
        Res.ok (Aggregated.returned (noCodeFragment prId pr.title)) ∨
    ∃ c, (contextOf S prId pr changes w).1 = Res.ok (Aggregated.context pr.title c) := by
  unfold contextOf
  simp only
  split
  · exact Or.inl rfl
  · exact Or.inr ⟨_, rfl⟩

theorem aggregate_shape {σ : Type} (S : Services σ) (prId : JsNum) (w : World σ) :
    (∃ e, (aggregate S prId w).1 = Res.thrown e) ∨
    (aggregate S prId w).1 = Res.ok (Aggregated.returned (notFoundFragment prId)) ∨
    (∃ t, (aggregate S prId w).1 = Res.ok (Aggregated.returned (noIterationFragment prId t))) ∨
    (∃ t, (aggregate S prId w).1 = Res.ok (Aggregated.returned (noCodeFragment prId t))) ∨
    (∃ t c, (aggregate S prId w).1 = Res.ok (Aggregated.context t c)) := by
  unfold aggregate
  simp only [call]
  cases (S.getPullRequestById prId w.state).1 with
  | raises e => exact Or.inl ⟨e, rfl⟩
  | nothing => exact Or.inr (Or.inl rfl)
  | value pr =>
    simp only
    cases (S.getPullRequestIterations pr.repository.id prId
        (S.getPullRequestById prId w.state).2).1 with
    | raises e => exact Or.inl ⟨e, rfl⟩
    | nothing => exact Or.inr (Or.inr (Or.inl ⟨pr.title, rfl⟩))
    | value diffs =>
      simp only
      cases diffs.getLast? with
      | none => exact Or.inr (Or.inr (Or.inl ⟨pr.title, rfl⟩))
      | some last =>
        simp only
        cases (S.getPullRequestIterationChanges pr.repository.id prId last.id
            (S.getPullRequestIterations pr.repository.id prId
              (S.getPullRequestById prId w.state).2).2).1 with
        | raises e => exact Or.inl ⟨e, rfl⟩
        | nothing =>
          simp only
          rcases contextOf_shape S prId pr none
            ⟨(S.getPullRequestIterationChanges pr.repository.id prId last.id
              (S.getPullRequestIterations pr.repository.id prId
                (S.getPullRequestById prId w.state).2).2).2,
              w.calls ++ [Call.getPullRequestById prId] ++
                [Call.getPullRequestIterations pr.repository.id prId] ++
                [Call.getPullRequestIterationChanges pr.repository.id prId last.id]⟩ with h | ⟨c, h⟩
          · exact Or.inr (Or.inr (Or.inr (Or.inl ⟨pr.title, h⟩)))
          · exact Or.inr (Or.inr (Or.inr (Or.inr ⟨pr.title, c, h⟩)))
        | value changes =>
          simp only
          rcases contextOf_shape S prId pr (some changes)
            ⟨(S.getPullRequestIterationChanges pr.repository.id prId last.id
              (S.getPullRequestIterations pr.repository.id prId
                (S.getPullRequestById prId w.state).2).2).2,
              w.calls ++ [Call.getPullRequestById prId] ++
                [Call.getPullRequestIterations pr.repository.id prId] ++
                [Call.getPullRequestIterationChanges pr.repository.id prId last.id]⟩ with h | ⟨c, h⟩
          · exact Or.inr (Or.inr (Or.inr (Or.inl ⟨pr.title, h⟩)))
          · exact Or.inr (Or.inr (Or.inr (Or.inr ⟨pr.title, c, h⟩)))

theorem analisarPR_shape {σ : Type} (S : Services σ) (prId : JsNum) (req : Str) (w : World σ) :
    ∃ fragment, (analisarPR S prId req w).1 = Res.ok fragment ∧ isFragmentFor prId fragment := by
  have hagg := aggregate_shape S prId w
  unfold analisarPR analisarPRTry
  generalize aggregate S prId w = r at hagg
  obtain ⟨r1, w1⟩ := r
  simp only at hagg
  rcases hagg with ⟨e, h⟩ | h | ⟨t, h⟩ | ⟨t, h⟩ | ⟨t, c, h⟩
  · subst h
    exact ⟨_, rfl, Or.inr (Or.inr (Or.inr (Or.inr ⟨e.message, rfl⟩)))⟩
  · subst h
    exact ⟨_, rfl, Or.inl rfl⟩
  · subst h
    exact ⟨_, rfl, Or.inr (Or.inl ⟨t, rfl⟩)⟩
  · subst h
    exact ⟨_, rfl, Or.inr (Or.inr (Or.inl ⟨t, rfl⟩))⟩
  · subst h
    simp only [call]
    cases (S.generateContent (prompt req c) w1.state).1 with
    | raises e => exact ⟨_, rfl, Or.inr (Or.inr (Or.inr (Or.inr ⟨e.message, rfl⟩)))⟩
    | nothing =>
      exact ⟨_, rfl, Or.inr (Or.inr (Or.inr (Or.inr ⟨(typeError "response").message, rfl⟩)))⟩
    | value analise => exact ⟨_, rfl, Or.inr (Or.inr (Or.inr (Or.inl ⟨t, analise, rfl⟩)))⟩

theorem runEach_fragments {σ : Type} (S : Services σ) (req : Str) (prIds : List JsNum)
    (w : World σ) :
    List.Forall₂ (fun prId fragment => isFragmentFor prId fragment ∧ fragment ≠ []) prIds
      ((runEach S req prIds w).map (fun r => fragmentText r.1)) := by
  induction prIds generalizing w with
  | nil => exact List.Forall₂.nil
  | cons p rest ih =>
    obtain ⟨f, hf, hshape⟩ := analisarPR_shape S p req w
    rw [runEach, List.map_cons, hf]
    exact List.Forall₂.cons ⟨hshape, isFragmentFor_ne_nil p f hshape⟩ (ih _)

/-- Claim C1. Whatever the services answer, `analisarPR` completes with a fragment
and never raises, and the fragment is one of the five renderings of that PR,
never empty. Hence, once the requirements of the work item are fetched, the
report built by `main` is the header
`<h2>Relatório Gemini AI (mode)</h2><p>Data: date</p><hr>` followed by exactly
one such fragment per PR id of the work list, in the order of the list, and
`updateWorkItem` is the next call, made with that report (the run ends as
`updated` or, when the update raises, as `fatal`). In particular, for a work
list of two PRs where the first reaches the generation call and gets a verdict
and the generation call of the second raises, the report is the header, the
verdict `<div ...><h3>Análise PR #id: title</h3>...</div>` of the first and the
error fragment `<p style="color:red">Erro ao analisar PR #id: message</p>` of
the second. -/
theorem report_has_one_fragment_per_pr {σ : Type} (S : Services σ) (cfg : Config)
    (inp : Input) (wiId : JsNum) (listaPrs : List JsNum) (w : World σ) (workItem : WorkItem)
    (s1 : σ) (hwi : S.getWorkItem wiId false w.state = (Reply.value workItem, s1)) :
    (∀ (prId : JsNum) (req : Str) (w0 : World σ),
        ∃ fragment, (analisarPR S prId req w0).1 = Res.ok fragment ∧
          isFragmentFor prId fragment ∧ fragment ≠ []) ∧
    (∃ fragments : List Str,
      fragments = (runEach S (requirementsOf workItem) listaPrs
          ⟨s1, w.calls ++ [Call.getWorkItem wiId false]⟩).map (fun r => fragmentText r.1) ∧
      List.Forall₂ (fun prId fragment => isFragmentFor prId fragment ∧ fragment ≠ [])
        listaPrs fragments ∧
      fragments.length = listaPrs.length ∧
      composeReport S (requirementsOf workItem) listaPrs (reportHeader inp)
          ⟨s1, w.calls ++ [Call.getWorkItem wiId false]⟩ =
        (Res.ok ("<h2>Relatório Gemini AI (".toList ++
            (if trim inp.modeInput = "1".toList then "PR Único".toList else "Completo".toList) ++
            ")</h2><p>Data: ".toList ++ inp.now ++ "</p><hr>".toList ++ fragments.flatten),
          worldAfter ⟨s1, w.calls ++ [Call.getWorkItem wiId false]⟩
            (runEach S (requirementsOf workItem) listaPrs
              ⟨s1, w.calls ++ [Call.getWorkItem wiId false]⟩)) ∧
      (analyseAndUpdate cfg inp S wiId listaPrs w).2.calls =
        (worldAfter ⟨s1, w.calls ++ [Call.getWorkItem wiId false]⟩
            (runEach S (requirementsOf workItem) listaPrs
              ⟨s1, w.calls ++ [Call.getWorkItem wiId false]⟩)).calls ++
          [Call.updateWorkItem ("/fields/".toList ++ tplStr cfg.FIELD_UPDATE_ANALYSIS)
            ("<h2>Relatório Gemini AI (".toList ++
              (if trim inp.modeInput = "1".toList then "PR Único".toList else "Completo".toList) ++
              ")</h2><p>Data: ".toList ++ inp.now ++ "</p><hr>".toList ++ fragments.flatten)
            wiId] ∧
      ((analyseAndUpdate cfg inp S wiId listaPrs w).1 =
          Res.ok (Outcome.updated wiId
            ("<h2>Relatório Gemini AI (".toList ++
              (if trim inp.modeInput = "1".toList then "PR Único".toList else "Completo".toList) ++
              ")</h2><p>Data: ".toList ++ inp.now ++ "</p><hr>".toList ++ fragments.flatten)) ∨
        ∃ e, (analyseAndUpdate cfg inp S wiId listaPrs w).1 = Res.thrown e)) ∧
    (∀ (p1 p2 : JsNum) (t1 c1 a1 t2 c2 : Str) (e : JsError) (w2 w4 : World σ) (s3 s5 : σ),
      listaPrs = [p1, p2] →
      aggregate S p1 ⟨s1, w.calls ++ [Call.getWorkItem wiId false]⟩ =
        (Res.ok (Aggregated.context t1 c1), w2) →
      S.generateContent (prompt (requirementsOf workItem) c1) w2.state = (Reply.value a1, s3) →
      aggregate S p2 ⟨s3, w2.calls ++ [Call.generateContent (prompt (requirementsOf workItem) c1)]⟩ =
        (Res.ok (Aggregated.context t2 c2), w4) →
      S.generateContent (prompt (requirementsOf workItem) c2) w4.state = (Reply.raises e, s5) →
      (analyseAndUpdate cfg inp S wiId listaPrs w).2.calls =
        w4.calls ++ [Call.generateContent (prompt (requirementsOf workItem) c2),
          Call.updateWorkItem ("/fields/".toList ++ tplStr cfg.FIELD_UPDATE_ANALYSIS)
            ("<h2>Relatório Gemini AI (".toList ++
              (if trim inp.modeInput = "1".toList then "PR Único".toList else "Completo".toList) ++
              ")</h2><p>Data: ".toList ++ inp.now ++ "</p><hr>".toList ++
              ("\n        <div style=\"margin-bottom: 20px; border-bottom: 1px solid #ccc; padding-bottom: 10px;\">\n            <h3>Análise PR #".toList
                ++ numToStr p1 ++ ": ".toList ++ t1 ++ "</h3>\n            ".toList
                ++ replaceNewlines a1 ++ "\n        </div>\n        ".toList) ++
              ("<p style=\"color:red\">Erro ao analisar PR #".toList ++ numToStr p2 ++
                ": ".toList ++ e.message ++ "</p>".toList)) wiId]) := by
  have hcalls : ∀ r : Option JsError × σ, ∀ (cs : List Call) (rep : Str),
      (match ((r.1, (⟨r.2, cs⟩ : World σ)) : Option JsError × World σ) with
        | (some e, w3) => ((Res.thrown e : Res Outcome), w3)
        | (none, w3) => (Res.ok (Outcome.updated wiId rep), w3)).2.calls = cs := by
    intro r cs rep
    rcases r with ⟨_ | e, s⟩ <;> rfl
  have hheader : reportHeader inp = "<h2>Relatório Gemini AI (".toList ++
      (if trim inp.modeInput = "1".toList then "PR Único".toList else "Completo".toList) ++
      ")</h2><p>Data: ".toList ++ inp.now ++ "</p><hr>".toList := rfl
  have hpath : fieldPath cfg = "/fields/".toList ++ tplStr cfg.FIELD_UPDATE_ANALYSIS := rfl
  refine ⟨?_, ⟨_, rfl, runEach_fragments _ _ _ _, ?_, ?_, ?_, ?_⟩, ?_⟩
  · intro prId req w0
    obtain ⟨f, hf, hshape⟩ := analisarPR_shape S prId req w0
    exact ⟨f, hf, hshape, isFragmentFor_ne_nil prId f hshape⟩
  · rw [List.length_map, runEach_length]
  · rw [composeReport_eq, hheader]
  · rw [← hheader, ← hpath]
    simp only [analyseAndUpdate, call, hwi, composeReport_eq]
    exact hcalls _ _ _
  · rw [← hheader]
    simp only [analyseAndUpdate, call, hwi, composeReport_eq]
    generalize S.updateWorkItem _ _ _ _ = r
    rcases r with ⟨_ | e, s⟩
    · exact Or.inl rfl
    · exact Or.inr ⟨e, rfl⟩
  · intro p1 p2 t1 c1 a1 t2 c2 e w2 w4 s3 s5 hl h1 h2 h3 h4
    subst hl
    have r1 := analisarPR_verdict S p1 (requirementsOf workItem) _ w2 t1 c1 a1 s3 h1 h2
    have r2 := analisarPR_generation_raises S p2 (requirementsOf workItem) _ w4 t2 c2 e s5 h3 h4
    have hv : verdictFragment p1 t1 a1 =
        "\n        <div style=\"margin-bottom: 20px; border-bottom: 1px solid #ccc; padding-bottom: 10px;\">\n            <h3>Análise PR #".toList
          ++ numToStr p1 ++ ": ".toList ++ t1 ++ "</h3>\n            ".toList
          ++ replaceNewlines a1 ++ "\n        </div>\n        ".toList := rfl
    have he : errorFragment p2 e.message = "<p style=\"color:red\">Erro ao analisar PR #".toList ++
        numToStr p2 ++ ": ".toList ++ e.message ++ "</p>".toList := rfl
    rw [← hheader, ← hpath, ← hv, ← he]
    simp only [analyseAndUpdate, call, hwi, composeReport, r1, r2]
    rw [hcalls]
    simp

/-! ## The code context -/

theorem collectContext_eq {σ : Type} (S : Services σ) (repoId projectName : Str)
    (entries : List ChangeEntry) (acc : Str) (w : World σ) :
    collectContext S repoId projectName entries acc w =
      (acc ++ expectedContext S repoId projectName entries w.state,
        ⟨(fetches S repoId projectName entries w.state).2,
          w.calls ++ (fetches S repoId projectName entries w.state).1.map
            (blobCall repoId projectName)⟩) := by
  induction entries generalizing acc w with
  | nil => simp [collectContext, expectedContext, fetches]
  | cons entry rest ih =>
    rw [collectContext]
    cases hitem : entry.item with
    | none => simp [ih, expectedContext, fetches, fetchedItem, hitem]
    | some item =>
      by_cases hskip : entry.changeType = 16 ∨ item.isFolder = true
      · have hf : fetchedItem entry = none := by
          rcases hskip with h | h <;> simp [fetchedItem, hitem, h]
        simp [hskip, ih, expectedContext, fetches, hf]
      · have hf : fetchedItem entry = some item := by
          have h1 : entry.changeType ≠ 16 := fun h => hskip (Or.inl h)
          have h2 : item.isFolder = false := by
            cases hb : item.isFolder
            · rfl
            · exact absurd (Or.inr hb) hskip
          simp [fetchedItem, hitem, h1, h2]
        simp only [hskip, if_false, call]
        cases hrep : (S.getBlobContent repoId item.objectId projectName w.state).1 with
        | value text =>
          by_cases hn : hasNul text = true
          · simp [hn, ih, expectedContext, fetches, hf, hrep, readablePiece, blobCall]
          · simp [hn, ih, expectedContext, fetches, hf, hrep, readablePiece, blobCall]
        | nothing => simp [ih, expectedContext, fetches, hf, hrep, readablePiece, blobCall]
        | raises e => simp [ih, expectedContext, fetches, hf, hrep, readablePiece, blobCall]

theorem contextOf_eq {σ : Type} (S : Services σ) (prId : JsNum) (pr : PullRequest)
    (r : Reply Changes) (hr : ∀ e, r ≠ Reply.raises e) (w : World σ) :
    (match r with
      | Reply.raises e => (Res.thrown e, w)
      | Reply.nothing => contextOf S prId pr none w
      | Reply.value changes => contextOf S prId pr (some changes) w) =
      ((if (expectedContext S pr.repository.id pr.repository.project.name
              (entriesOf r) w.state).isEmpty = true
          then Res.ok (Aggregated.returned (noCodeFragment prId pr.title))
          else Res.ok (Aggregated.context pr.title
            (expectedContext S pr.repository.id pr.repository.project.name
              (entriesOf r) w.state))),
        ⟨(fetches S pr.repository.id pr.repository.project.name (entriesOf r) w.state).2,
          w.calls ++ (fetches S pr.repository.id pr.repository.project.name
            (entriesOf r) w.state).1.map
              (blobCall pr.repository.id pr.repository.project.name)⟩) := by
  cases r with
  | raises e => exact absurd rfl (hr e)
  | nothing => simp [contextOf, entriesOf, expectedContext, fetches]
  | value changes =>
    obtain ⟨ce⟩ := changes
    cases ce with
    | none => simp [contextOf, entriesOf, expectedContext, fetches]
    | some entries =>
      simp only [contextOf, entriesOf, collectContext_eq, List.nil_append]
      split <;> rfl

theorem aggregate_eq {σ : Type} (S : Services σ) (prId : JsNum) (w : World σ)
    (pr : PullRequest) (its : List Iteration) (last : Iteration) (r : Reply Changes) (s1 s2 s3 : σ)
    (hpr : S.getPullRequestById prId w.state = (Reply.value pr, s1))
    (hit : S.getPullRequestIterations pr.repository.id prId s1 = (Reply.value its, s2))
    (hlast : its.getLast? = some last)
    (hch : S.getPullRequestIterationChanges pr.repository.id prId last.id s2 = (r, s3))
    (hr : ∀ e, r ≠ Reply.raises e) :
    aggregate S prId w =
      ((if (expectedContext S pr.repository.id pr.repository.project.name
              (entriesOf r) s3).isEmpty = true
          then Res.ok (Aggregated.returned (noCodeFragment prId pr.title))
          else Res.ok (Aggregated.context pr.title
            (expectedContext S pr.repository.id pr.repository.project.name (entriesOf r) s3))),
        ⟨(fetches S pr.repository.id pr.repository.project.name (entriesOf r) s3).2,
          w.calls ++ [Call.getPullRequestById prId,
              Call.getPullRequestIterations pr.repository.id prId,
              Call.getPullRequestIterationChanges pr.repository.id prId last.id] ++
            (fetches S pr.repository.id pr.repository.project.name (entriesOf r) s3).1.map
              (blobCall pr.repository.id pr.repository.project.name)⟩) := by
  have h := contextOf_eq S prId pr r hr
    ⟨s3, w.calls ++ [Call.getPullRequestById prId,
      Call.getPullRequestIterations pr.repository.id prId,
      Call.getPullRequestIterationChanges pr.repository.id prId last.id]⟩
  simp only [aggregate, call, hpr, hit, hlast, hch]
  cases r with
  | raises e => exact absurd rfl (hr e)
  | nothing => simpa using h
  | value changes => simpa using h

/-- Claim C2. When the metadata of the PR and a non-empty iteration list are
returned and the changes call of the selected iteration answers with the entry
list `entries`, the code context assembled by `analisarPR` (the accumulator
left by the loop over the entries) is the concatenation, in the order of the
entries, of file marker, text and line feed over exactly the entries that have
an item, are no delete (change type 16), are no folder, whose blob fetch
succeeds and whose text holds no NUL; a fetch that raises contributes nothing
and does not stop the loop. That context is what lines 84-86 test, and when it
is not empty it is the one embedded in the prompt sent to the generation
service. -/
theorem code_context_is_readable_files {σ : Type} (S : Services σ) (prId : JsNum)
    (w : World σ) (pr : PullRequest) (its : List Iteration) (last : Iteration)
    (entries : List ChangeEntry) (s1 s2 s3 : σ)
    (hpr : S.getPullRequestById prId w.state = (Reply.value pr, s1))
    (hit : S.getPullRequestIterations pr.repository.id prId s1 = (Reply.value its, s2))
    (hlast : its.getLast? = some last)
    (hch : S.getPullRequestIterationChanges pr.repository.id prId last.id s2 =
      (Reply.value ⟨some entries⟩, s3)) :
    (∀ cs : List Call,
      (collectContext S pr.repository.id pr.repository.project.name entries [] ⟨s3, cs⟩).1 =
        ((fetches S pr.repository.id pr.repository.project.name entries s3).1.filterMap
          readablePiece).flatten) ∧
    (aggregate S prId w).1 =
      (if ((fetches S pr.repository.id pr.repository.project.name entries s3).1.filterMap
            readablePiece).flatten = []
        then Res.ok (Aggregated.returned (noCodeFragment prId pr.title))
        else Res.ok (Aggregated.context pr.title
          ((fetches S pr.repository.id pr.repository.project.name entries s3).1.filterMap
            readablePiece).flatten)) ∧
    (((fetches S pr.repository.id pr.repository.project.name entries s3).1.filterMap
          readablePiece).flatten ≠ [] →
      ∀ req : Str,
        (analisarPR S prId req w).2.calls.getLast? =
          some (Call.generateContent (prompt req
            ((fetches S pr.repository.id pr.repository.project.name entries s3).1.filterMap
              readablePiece).flatten))) := by
  have hagg := aggregate_eq S prId w pr its last (Reply.value ⟨some entries⟩) s1 s2 s3
    hpr hit hlast hch (by intro e h; cases h)
  simp only [entriesOf, expectedContext] at hagg
  refine ⟨?_, ?_, ?_⟩
  · intro cs
    simp [collectContext_eq, expectedContext]
  · rw [hagg]
    simp only [List.isEmpty_iff]
  · intro hne req
    have hne2 : (((fetches S pr.repository.id pr.repository.project.name entries s3).1.filterMap
          readablePiece).flatten).isEmpty = false := by
      cases h : ((fetches S pr.repository.id pr.repository.project.name entries s3).1.filterMap
          readablePiece).flatten with
      | nil => exact absurd h hne
      | cons a t => rfl
    rw [hne2] at hagg
    simp only [Bool.false_eq_true, if_false] at hagg
    simp only [analisarPR, analisarPRTry, hagg, call]
    cases (S.generateContent _ _).1 <;> exact List.getLast?_concat _

theorem flatten_filterMap_none {α β : Type} (f : α → Option (List β)) (l : List α)
    (h : ∀ p ∈ l, f p = none) : (l.filterMap f).flatten = [] := by
  induction l with
  | nil => rfl
  | cons a t ih =>
    have ha : f a = none := h a (List.mem_cons_self a t)
    have ht : ∀ p ∈ t, f p = none := fun p hp => h p (List.mem_cons_of_mem a hp)
    simp [List.filterMap_cons, ha, ih ht]

/-- Claim C6. When the metadata of the PR and a non-empty iteration list are
returned, the changes call does not raise, and no entry yields a readable file
(there is no entry, or every entry is without item, a delete, a folder, or its
fetch fails or gives a text holding a NUL), `analisarPR` returns exactly the
placeholder `<h3>PR #id: title</h3><p><em>Nenhum código legível.</em></p><hr>`,
does not raise, and the calls it makes are the three metadata calls and the blob
fetches: the generation service is not called. -/
theorem unreadable_pr_gives_placeholder {σ : Type} (S : Services σ) (prId : JsNum) (req : Str)
    (w : World σ) (pr : PullRequest) (its : List Iteration) (last : Iteration)
    (r : Reply Changes) (s1 s2 s3 : σ)
    (hpr : S.getPullRequestById prId w.state = (Reply.value pr, s1))
    (hit : S.getPullRequestIterations pr.repository.id prId s1 = (Reply.value its, s2))
    (hlast : its.getLast? = some last)
    (hch : S.getPullRequestIterationChanges pr.repository.id prId last.id s2 = (r, s3))
    (hr : ∀ e, r ≠ Reply.raises e)
    (hnone : ∀ p ∈ (fetches S pr.repository.id pr.repository.project.name (entriesOf r) s3).1,
      readablePiece p = none) :
    (analisarPR S prId req w).1 =
      Res.ok ("<h3>PR #".toList ++ numToStr prId ++ ": ".toList ++ pr.title ++
        "</h3><p><em>Nenhum código legível.</em></p><hr>".toList) ∧
    (analisarPR S prId req w).2.calls =
      w.calls ++ [Call.getPullRequestById prId,
          Call.getPullRequestIterations pr.repository.id prId,
          Call.getPullRequestIterationChanges pr.repository.id prId last.id] ++
        (fetches S pr.repository.id pr.repository.project.name (entriesOf r) s3).1.map
          (blobCall pr.repository.id pr.repository.project.name) ∧
    (∀ c ∈ [Call.getPullRequestById prId,
          Call.getPullRequestIterations pr.repository.id prId,
          Call.getPullRequestIterationChanges pr.repository.id prId last.id] ++
        (fetches S pr.repository.id pr.repository.project.name (entriesOf r) s3).1.map
          (blobCall pr.repository.id pr.repository.project.name),
      ∀ p : Str, c ≠ Call.generateContent p) := by
  have hagg := aggregate_eq S prId w pr its last r s1 s2 s3 hpr hit hlast hch hr
  have hctx : expectedContext S pr.repository.id pr.repository.project.name (entriesOf r) s3 = [] :=
    flatten_filterMap_none _ _ hnone
  rw [hctx] at hagg
  simp only [List.isEmpty_nil, if_true] at hagg
  refine ⟨?_, ?_, ?_⟩
  · simp only [analisarPR, analisarPRTry, hagg]
    rfl
  · simp only [analisarPR, analisarPRTry, hagg]
  · intro c hc p hcp
    subst hcp
    simp [blobCall] at hc

/-- When the metadata of the PR and a non-empty iteration list are returned,
the one changes call made by `analisarPR` is for the iteration that stands last
in the returned list (line 50); that iteration has the greatest id of the list
whenever the list is in ascending order of id. -/
theorem changes_fetched_for_last_listed {σ : Type} (S : Services σ) (prId : JsNum)
    (req : Str) (w : World σ) (pr : PullRequest) (its : List Iteration) (last : Iteration)
    (s1 s2 : σ)
    (hpr : S.getPullRequestById prId w.state = (Reply.value pr, s1))
    (hit : S.getPullRequestIterations pr.repository.id prId s1 = (Reply.value its, s2))
    (hlast : its.getLast? = some last) :
    (∃ tail : List Call,
      (analisarPR S prId req w).2.calls =
        w.calls ++ [Call.getPullRequestById prId,
          Call.getPullRequestIterations pr.repository.id prId,
          Call.getPullRequestIterationChanges pr.repository.id prId last.id] ++ tail ∧
      ∀ c ∈ tail, ∀ (repo : Str) (p : JsNum) (i : Int),
        c ≠ Call.getPullRequestIterationChanges repo p i) ∧
    (its.Pairwise (fun a b => a.id ≤ b.id) → ∀ it ∈ its, it.id ≤ last.id) := by
  constructor
  · cases hch : S.getPullRequestIterationChanges pr.repository.id prId last.id s2 with
    | mk r s3 =>
      by_cases hr : ∀ e, r ≠ Reply.raises e
      · have hagg := aggregate_eq S prId w pr its last r s1 s2 s3 hpr hit hlast hch hr
        have hblob : ∀ c ∈ (fetches S pr.repository.id pr.repository.project.name
            (entriesOf r) s3).1.map (blobCall pr.repository.id pr.repository.project.name),
            ∀ (repo : Str) (p : JsNum) (i : Int),
              c ≠ Call.getPullRequestIterationChanges repo p i := by
          intro c hc repo p i hcp
          subst hcp
          simp [blobCall] at hc
        by_cases hemp : (expectedContext S pr.repository.id pr.repository.project.name
            (entriesOf r) s3).isEmpty = true
        · rw [hemp] at hagg
          simp only [if_true] at hagg
          refine ⟨_, ?_, hblob⟩
          simp only [analisarPR, analisarPRTry, hagg]
        · simp only [hemp, Bool.false_eq_true, if_false] at hagg
          refine ⟨(fetches S pr.repository.id pr.repository.project.name
            (entriesOf r) s3).1.map (blobCall pr.repository.id pr.repository.project.name) ++
            [Call.generateContent (prompt req (expectedContext S pr.repository.id
              pr.repository.project.name (entriesOf r) s3))], ?_, ?_⟩
          · simp only [analisarPR, analisarPRTry, hagg, call]
            cases (S.generateContent _ _).1 <;> simp only [List.append_assoc]
          · intro c hc repo p i hcp
            rcases List.mem_append.mp hc with h | h
            · exact hblob c h repo p i hcp
            · subst hcp
              simp at h
      · have hex : ∃ e, r = Reply.raises e := by
          by_contra hno
          exact hr (fun e he => hno ⟨e, he⟩)
        obtain ⟨e, rfl⟩ := hex
        refine ⟨[], ?_, by simp⟩
        simp [analisarPR, analisarPRTry, aggregate, call, hpr, hit, hlast, hch]
  · intro hsorted it hmem
    obtain ⟨ys, rfl⟩ := List.getLast?_eq_some_iff.mp hlast
    rw [List.pairwise_append] at hsorted
    rcases List.mem_append.mp hmem with h | h
    · exact hsorted.2.2 it h last (List.mem_singleton_self last)
    · rw [List.mem_singleton.mp h]

/-- Claim C4. For every non-empty list of iterations returned for a PR in the
order of the platform's contract (ascending id), the single changes call made
by `analisarPR` is for the iteration with the greatest id of the list, the most
recent one: every iteration of the list has an id at most the fetched one, and
no other changes call is made, so neither the first nor any other iteration is
fetched in its place. -/
theorem changes_fetched_for_latest_iteration {σ : Type} (S : Services σ) (prId : JsNum)
    (req : Str) (w : World σ) (pr : PullRequest) (its : List Iteration) (s1 s2 : σ)
    (hpr : S.getPullRequestById prId w.state = (Reply.value pr, s1))
    (hit : S.getPullRequestIterations pr.repository.id prId s1 = (Reply.value its, s2))
    (hne : its ≠ [])
    (hsorted : its.Pairwise (fun a b => a.id ≤ b.id)) :
    ∃ latest ∈ its,
      (∀ it ∈ its, it.id ≤ latest.id) ∧
      ∃ tail : List Call,
        (analisarPR S prId req w).2.calls =
          w.calls ++ [Call.getPullRequestById prId,
            Call.getPullRequestIterations pr.repository.id prId,
            Call.getPullRequestIterationChanges pr.repository.id prId latest.id] ++ tail ∧
        ∀ c ∈ tail, ∀ (repo : Str) (p : JsNum) (i : Int),
          c ≠ Call.getPullRequestIterationChanges repo p i := by
  have hlast : its.getLast? = some (its.getLast hne) := List.getLast?_eq_getLast its hne
  have h := changes_fetched_for_last_listed S prId req w pr its (its.getLast hne) s1 s2
    hpr hit hlast
  exact ⟨its.getLast hne, List.getLast_mem hne, h.2 hsorted, h.1⟩

/-! ## Link resolution from the relations of a work item -/

theorem setAdd_nodup (prs : List JsNum) (x : JsNum) (h : prs.Nodup) : (setAdd prs x).Nodup := by
  unfold setAdd
  split
  · exact h
  · rename_i hx
    exact List.Nodup.append h (List.nodup_singleton x) (by simpa using hx)

theorem mem_setAdd_self (prs : List JsNum) (x : JsNum) : x ∈ setAdd prs x := by
  unfold setAdd
  split
  · assumption
  · simp

theorem mem_setAdd_of_mem (prs : List JsNum) (x y : JsNum) (h : y ∈ prs) : y ∈ setAdd prs x := by
  unfold setAdd
  split
  · exact h
  · exact List.mem_append_left _ h

theorem mem_setAdd_iff (prs : List JsNum) (x y : JsNum) : y ∈ setAdd prs x ↔ y ∈ prs ∨ y = x := by
  unfold setAdd
  split
  · rename_i hx
    constructor
    · exact Or.inl
    · rintro (h | rfl)
      · exact h
      · exact hx
  · simp

theorem relationStep_of_not_marker (prs : List JsNum) (rel : Relation)
    (h : isPrRelation rel = false) : relationStep prs rel = Res.ok prs := by
  simp [relationStep, h]

theorem relationStep_cases (prs : List JsNum) (rel : Relation) :
    relationStep prs rel = Res.ok prs ∨
    (isPrRelation rel = true ∧ decodeURIComponent (tplStr rel.url) = none ∧
      relationStep prs rel = Res.thrown uriError) ∨
    (isPrRelation rel = true ∧ ∃ d id, decodeURIComponent (tplStr rel.url) = some d ∧
      extractId d = some id ∧ relationStep prs rel = Res.ok (setAdd prs id)) := by
  by_cases hm : isPrRelation rel = true
  · cases hd : decodeURIComponent (tplStr rel.url) with
    | none =>
      refine Or.inr (Or.inl ⟨hm, rfl, ?_⟩)
      simp [relationStep, hm, hd]
    | some d =>
      cases he : extractId d with
      | none =>
        refine Or.inl ?_
        simp [relationStep, hm, hd, he]
      | some id =>
        refine Or.inr (Or.inr ⟨hm, d, id, rfl, he, ?_⟩)
        simp [relationStep, hm, hd, he]
  · refine Or.inl ?_
    simp [relationStep, hm]

theorem scanRelations_filter (rels : List Relation) (prs : List JsNum) :
    scanRelations rels prs = scanRelations (rels.filter (fun rel => isPrRelation rel)) prs := by
  induction rels generalizing prs with
  | nil => rfl
  | cons rel rest ih =>
    by_cases hm : isPrRelation rel = true
    · rw [List.filter_cons_of_pos hm, scanRelations, scanRelations]
      cases relationStep prs rel with
      | thrown e => rfl
      | ok next => exact ih next
    · have hm2 : isPrRelation rel = false := by simpa using hm
      rw [List.filter_cons_of_neg hm, scanRelations, relationStep_of_not_marker prs rel hm2]
      exact ih prs

theorem scanRelations_origin (rels : List Relation) (prs0 prs : List JsNum)
    (h : scanRelations rels prs0 = Res.ok prs) (id : JsNum) (hid : id ∈ prs) :
    id ∈ prs0 ∨ ∃ rel ∈ rels, isPrRelation rel = true ∧
      ∃ d, decodeURIComponent (tplStr rel.url) = some d ∧ extractId d = some id := by
  induction rels generalizing prs0 with
  | nil =>
    simp only [scanRelations, Res.ok.injEq] at h
    subst h
    exact Or.inl hid
  | cons rel rest ih =>
    rw [scanRelations] at h
    rcases relationStep_cases prs0 rel with hs | ⟨_, _, hs⟩ | ⟨hm, d, x, hd, hx, hs⟩
    · rw [hs] at h
      rcases ih prs0 h with h1 | ⟨r, hr, hrest⟩
      · exact Or.inl h1
      · exact Or.inr ⟨r, List.mem_cons_of_mem _ hr, hrest⟩
    · rw [hs] at h
      cases h
    · rw [hs] at h
      rcases ih (setAdd prs0 x) h with h1 | ⟨r, hr, hrest⟩
      · rcases (mem_setAdd_iff prs0 x id).mp h1 with h2 | h2
        · exact Or.inl h2
        · subst h2
          exact Or.inr ⟨rel, List.mem_cons_self _ _, hm, d, hd, hx⟩
      · exact Or.inr ⟨r, List.mem_cons_of_mem _ hr, hrest⟩

theorem scanRelations_nodup (rels : List Relation) (prs0 prs : List JsNum)
    (h0 : prs0.Nodup) (h : scanRelations rels prs0 = Res.ok prs) : prs.Nodup := by
  induction rels generalizing prs0 with
  | nil =>
    simp only [scanRelations, Res.ok.injEq] at h
    subst h
    exact h0
  | cons rel rest ih =>
    rw [scanRelations] at h
    rcases relationStep_cases prs0 rel with hs | ⟨_, _, hs⟩ | ⟨_, d, x, _, _, hs⟩
    · rw [hs] at h
      exact ih prs0 h0 h
    · rw [hs] at h
      cases h
    · rw [hs] at h
      exact ih _ (setAdd_nodup prs0 x h0) h

theorem scanRelations_keeps (rels : List Relation) (prs0 prs : List JsNum)
    (h : scanRelations rels prs0 = Res.ok prs) (id : JsNum) (hid : id ∈ prs0) : id ∈ prs := by
  induction rels generalizing prs0 with
  | nil =>
    simp only [scanRelations, Res.ok.injEq] at h
    subst h
    exact hid
  | cons rel rest ih =>
    rw [scanRelations] at h
    rcases relationStep_cases prs0 rel with hs | ⟨_, _, hs⟩ | ⟨_, d, x, _, _, hs⟩
    · rw [hs] at h
      exact ih prs0 h hid
    · rw [hs] at h
      cases h
    · rw [hs] at h
      exact ih _ h (mem_setAdd_of_mem prs0 x id hid)

theorem scanRelations_collects (rels : List Relation) (prs0 prs : List JsNum)
    (h : scanRelations rels prs0 = Res.ok prs) (rel : Relation) (hrel : rel ∈ rels)
    (hm : isPrRelation rel = true) (d : Str) (id : JsNum)
    (hd : decodeURIComponent (tplStr rel.url) = some d) (hx : extractId d = some id) :
    id ∈ prs := by
  induction rels generalizing prs0 with
  | nil => cases hrel
  | cons r rest ih =>
    rw [scanRelations] at h
    rcases List.mem_cons.mp hrel with heq | hin
    · subst heq
      have hs : relationStep prs0 rel = Res.ok (setAdd prs0 id) := by
        simp [relationStep, hm, hd, hx]
      rw [hs] at h
      exact scanRelations_keeps rest _ prs h id (mem_setAdd_self prs0 id)
    · rcases relationStep_cases prs0 r with hs | ⟨_, _, hs⟩ | ⟨_, d2, x, _, _, hs⟩
      · rw [hs] at h
        exact ih prs0 h hin
      · rw [hs] at h
        cases h
      · rw [hs] at h
        exact ih _ h hin

/-! ### The marker test is a case-insensitive search -/

theorem startsWith_iff (h n : Str) : startsWith h n = true ↔ ∃ post, h = n ++ post := by
  induction n generalizing h with
  | nil =>
    cases h <;> simp [startsWith]
  | cons a t ih =>
    cases h with
    | nil => simp [startsWith]
    | cons b hs =>
      simp only [startsWith, Bool.and_eq_true, beq_iff_eq, ih, List.cons_append, List.cons.injEq]
      constructor
      · rintro ⟨rfl, post, rfl⟩
        exact ⟨post, rfl, rfl⟩
      · rintro ⟨post, rfl, rfl⟩
        exact ⟨rfl, post, rfl⟩

theorem includes_iff (h n : Str) : includes h n = true ↔ ∃ pre post, h = pre ++ n ++ post := by
  induction h with
  | nil =>
    cases n <;> simp [includes]
  | cons c cs ih =>
    simp only [includes, Bool.or_eq_true, startsWith_iff, ih]
    constructor
    · rintro (⟨post, hp⟩ | ⟨pre, post, hp⟩)
      · exact ⟨[], post, by simpa using hp⟩
      · exact ⟨c :: pre, post, by simp [hp]⟩
    · rintro ⟨pre, post, hp⟩
      cases pre with
      | nil => exact Or.inl ⟨post, by simpa using hp⟩
      | cons x pre2 =>
        simp only [List.cons_append, List.cons.injEq] at hp
        exact Or.inr ⟨pre2, post, hp.2⟩

theorem toLowerCase_append (a b : Str) : toLowerCase (a ++ b) = toLowerCase a ++ toLowerCase b := by
  induction a with
  | nil => rfl
  | cons c cs ih =>
    rw [List.cons_append, toLowerCase, toLowerCase, ih]
    split
    · rfl
    · split <;> rfl

theorem toLowerCase_eq_map (s : Str)
    (h : ∀ c ∈ s, c.toNat ≠ 0x212A ∧ c.toNat ≠ 0x130) : toLowerCase s = s.map lowerChar := by
  induction s with
  | nil => rfl
  | cons c cs ih =>
    have hc := h c (List.mem_cons_self c cs)
    have hcs : ∀ x ∈ cs, x.toNat ≠ 0x212A ∧ x.toNat ≠ 0x130 :=
      fun x hx => h x (List.mem_cons_of_mem c hx)
    simp [toLowerCase, hc.1, hc.2, ih hcs]

theorem startsWith_toLowerCase (m s : Str) (hsafe : lowerSafe m = true)
    (h : startsWith (toLowerCase s) m = true) :
    ∃ mid post, s = mid ++ post ∧ mid.map lowerChar = m := by
  induction m generalizing s with
  | nil => exact ⟨[], s, rfl, rfl⟩
  | cons a t ih =>
    simp only [lowerSafe, Bool.and_eq_true, Bool.or_eq_true, bne_iff_ne, ne_eq] at hsafe
    obtain ⟨⟨hk, hi⟩, ht⟩ := hsafe
    cases s with
    | nil => simp [toLowerCase, startsWith] at h
    | cons c cs =>
      rw [toLowerCase] at h
      split at h
      · simp only [startsWith, Bool.and_eq_true, beq_iff_eq] at h
        exact absurd h.1.symm hk
      · split at h
        · simp only [startsWith, Bool.and_eq_true, beq_iff_eq] at h
          obtain ⟨hai, hrest⟩ := h
          rcases hi with hi | hi
          · exact absurd hai.symm hi
          · cases t with
            | nil => simp at hi
            | cons b t2 =>
              simp only [startsWith, Bool.and_eq_true, beq_iff_eq] at hrest
              simp only [bne_iff_ne, ne_eq] at hi
              exact absurd hrest.1.symm hi
        · simp only [startsWith, Bool.and_eq_true, beq_iff_eq] at h
          obtain ⟨mid, post, hs, hmid⟩ := ih cs ht h.2
          exact ⟨c :: mid, post, by simp [hs], by simp [hmid, h.1]⟩

theorem includes_toLowerCase (a : Char) (t s : Str) (hk : a ≠ 'k') (hi : a ≠ 'i')
    (hc : a ≠ Char.ofNat 0x307) (hsafe : lowerSafe (a :: t) = true)
    (h : includes (toLowerCase s) (a :: t) = true) :
    ∃ pre mid post, s = pre ++ mid ++ post ∧ mid.map lowerChar = a :: t := by
  induction s with
  | nil => simp [toLowerCase, includes] at h
  | cons c cs ih =>
    have hstep : startsWith (toLowerCase (c :: cs)) (a :: t) = true ∨
        includes (toLowerCase cs) (a :: t) = true := by
      rw [toLowerCase] at h ⊢
      split at h
      · simp only [includes, Bool.or_eq_true] at h
        rcases h with h | h
        · simp only [startsWith, Bool.and_eq_true, beq_iff_eq] at h
          exact absurd h.1.symm hk
        · exact Or.inr h
      · split at h
        · simp only [includes, Bool.or_eq_true] at h
          rcases h with h | h | h
          · simp only [startsWith, Bool.and_eq_true, beq_iff_eq] at h
            exact absurd h.1.symm hi
          · simp only [startsWith, Bool.and_eq_true, beq_iff_eq] at h
            exact absurd h.1.symm hc
          · exact Or.inr h
        · simp only [includes, Bool.or_eq_true] at h
          rcases h with h | h
          · rename_i h1 h2
            simp only [h1, h2, if_false]
            exact Or.inl h
          · exact Or.inr h
    rcases hstep with h1 | h2
    · obtain ⟨mid, post, hs, hmid⟩ := startsWith_toLowerCase (a :: t) (c :: cs) hsafe h1
      exact ⟨[], mid, post, by simpa using hs, hmid⟩
    · obtain ⟨pre, mid, post, hs, hmid⟩ := ih h2
      exact ⟨c :: pre, mid, post, by simp [hs], hmid⟩

theorem lowerChar_ascii (c : Char) (h : (lowerChar c).toNat < 128) :
    c.toNat ≠ 0x212A ∧ c.toNat ≠ 0x130 := by
  unfold lowerChar at h
  split at h
  · rename_i hr
    omega
  · omega

/-- The test of line 174 holds exactly when the URL of the relation holds the
marker `pullrequestid` written in any mix of ASCII upper and lower case. -/
theorem isPrRelation_iff (rel : Relation) :
    isPrRelation rel = true ↔
      ∃ u pre mid post, rel.url = some u ∧ u = pre ++ mid ++ post ∧
        mid.map lowerChar = prMarker := by
  constructor
  · intro h
    unfold isPrRelation at h
    cases hu : rel.url with
    | none => simp [hu, truthyStr, includes, prMarker] at h
    | some u =>
      by_cases hemp : u.isEmpty = true
      · simp [hu, truthyStr, hemp, includes, prMarker] at h
      · simp only [hu, truthyStr, hemp, Bool.not_false, if_true, orEmpty] at h
        obtain ⟨pre, mid, post, hs, hmid⟩ :=
          includes_toLowerCase 'p' "ullrequestid".toList u (by decide) (by decide) (by decide)
            (by decide) h
        exact ⟨u, pre, mid, post, rfl, hs, hmid⟩
  · rintro ⟨u, pre, mid, post, hu, rfl, hmid⟩
    have hmidne : mid ≠ [] := by
      intro h0
      rw [h0] at hmid
      exact absurd hmid (by decide)
    have hne : (pre ++ mid ++ post).isEmpty = false := by
      cases pre <;> cases mid <;> simp_all
    have hascii : ∀ c ∈ mid, c.toNat ≠ 0x212A ∧ c.toNat ≠ 0x130 := by
      intro c hc
      apply lowerChar_ascii
      have hin : lowerChar c ∈ prMarker := by
        rw [← hmid]
        exact List.mem_map_of_mem lowerChar hc
      have hall : ∀ x ∈ prMarker, x.toNat < 128 := by decide
      exact hall _ hin
    unfold isPrRelation
    simp only [hu, truthyStr, hne, Bool.not_false, if_true, orEmpty]
    rw [includes_iff]
    refine ⟨toLowerCase pre, toLowerCase post, ?_⟩
    rw [toLowerCase_append, toLowerCase_append, toLowerCase_eq_map mid hascii, hmid]

theorem count_eq_one_of_nodup (l : List JsNum) (a : JsNum) (hnd : l.Nodup) (h : a ∈ l) :
    l.count a = 1 := by
  induction l with
  | nil => cases h
  | cons b t ih =>
    rw [List.nodup_cons] at hnd
    rw [List.count_cons]
    by_cases hab : b = a
    · subst hab
      have h0 : List.count b t = 0 := List.count_eq_zero.mpr hnd.1
      simp [h0]
    · have hin : a ∈ t := by
        rcases List.mem_cons.mp h with h1 | h1
        · exact absurd h1.symm hab
        · exact h1
      have hne : (b == a) = false := by
        simpa using hab
      simp [ih hnd.2 hin, hne]

theorem resolveCard_eq {σ : Type} (S : Services σ) (ID : JsNum) (w : World σ)
    (workItem : WorkItem) (s1 : σ)
    (hwi : S.getWorkItem ID true w.state = (Reply.value workItem, s1)) :
    resolveCard S ID w =
      ((match (match workItem.relations with
                | some relations => scanRelations relations []
                | none => Res.ok []) with
        | Res.thrown e => Res.thrown e
        | Res.ok prs => if prs.length = 0 then Res.ok Resolved.nothingToDo
            else Res.ok (Resolved.workSet ID prs)),
        ⟨s1, w.calls ++ [Call.getWorkItem ID true]⟩) := by
  simp only [resolveCard, call, hwi]
  cases (match workItem.relations with
          | some relations => scanRelations relations []
          | none => Res.ok []) with
  | thrown e => rfl
  | ok prs =>
    simp only
    split <;> rfl

theorem resolveCard_workSet {σ : Type} (S : Services σ) (ID : JsNum) (w : World σ)
    (workItem : WorkItem) (s1 : σ) (rels : List Relation)
    (hwi : S.getWorkItem ID true w.state = (Reply.value workItem, s1))
    (hrel : workItem.relations = some rels) (wi : JsNum) (prs : List JsNum)
    (h : (resolveCard S ID w).1 = Res.ok (Resolved.workSet wi prs)) :
    wi = ID ∧ scanRelations rels [] = Res.ok prs := by
  rw [resolveCard_eq S ID w workItem s1 hwi, hrel] at h
  simp only at h
  cases hs : scanRelations rels [] with
  | thrown e =>
    rw [hs] at h
    cases h
  | ok found =>
    rw [hs] at h
    simp only at h
    split at h
    · cases h
    · simp only [Res.ok.injEq, Resolved.workSet.injEq] at h
      exact ⟨h.1.symm, by rw [h.2]⟩

/-- Claim C7. In card mode only the relations that pass the marker test
contribute to the resolved set: the test holds exactly when the URL holds
`pullrequestid` in some mix of letter cases; a relation failing it (another
kind of link, or a relation without URL) leaves the set as it is, whatever its
URL ends with; scanning a relation list gives the same result as scanning only
its marked relations; and every id of the resolved set was extracted from a
marked relation of the list. -/
theorem only_pr_relations_contribute {σ : Type} (S : Services σ) (ID : JsNum) (w : World σ)
    (workItem : WorkItem) (s1 : σ) (rels : List Relation)
    (hwi : S.getWorkItem ID true w.state = (Reply.value workItem, s1))
    (hrel : workItem.relations = some rels) :
    (∀ rel : Relation, isPrRelation rel = true ↔
      ∃ u pre mid post, rel.url = some u ∧ u = pre ++ mid ++ post ∧
        mid.map lowerChar = "pullrequestid".toList) ∧
    (∀ (prs : List JsNum) (rel : Relation),
      isPrRelation rel = false → relationStep prs rel = Res.ok prs) ∧
    scanRelations rels [] = scanRelations (rels.filter (fun rel => isPrRelation rel)) [] ∧
    (∀ (wi : JsNum) (prs : List JsNum),
      (resolveCard S ID w).1 = Res.ok (Resolved.workSet wi prs) →
      ∀ id ∈ prs, ∃ rel ∈ rels, isPrRelation rel = true ∧
        ∃ d, decodeURIComponent (tplStr rel.url) = some d ∧ extractId d = some id) := by
  refine ⟨isPrRelation_iff, relationStep_of_not_marker, scanRelations_filter rels [], ?_⟩
  intro wi prs h id hid
  have hs := (resolveCard_workSet S ID w workItem s1 rels hwi hrel wi prs h).2
  rcases scanRelations_origin rels [] prs hs id hid with h0 | h1
  · cases h0
  · exact h1

/-- Claim C3, as amended. In card mode the resolved set holds every id once, and
two relation URLs that both pass the marker test and URL-decode to the same
string yield the same id: they change the set in the same way, and the id
extracted from a marked relation of the list is in the resolved set exactly
once, however many relations yield it. -/
theorem resolved_set_counts_each_id_once {σ : Type} (S : Services σ) (ID : JsNum)
    (w : World σ) (workItem : WorkItem) (s1 : σ) (rels : List Relation)
    (hwi : S.getWorkItem ID true w.state = (Reply.value workItem, s1))
    (hrel : workItem.relations = some rels) :
    (∀ (u v : Str) (prs : List JsNum),
      isPrRelation ⟨some u⟩ = true → isPrRelation ⟨some v⟩ = true →
      decodeURIComponent u = decodeURIComponent v →
      relationStep prs ⟨some u⟩ = relationStep prs ⟨some v⟩) ∧
    (∀ (wi : JsNum) (prs : List JsNum),
      (resolveCard S ID w).1 = Res.ok (Resolved.workSet wi prs) →
      prs.Nodup ∧
      ∀ rel ∈ rels, isPrRelation rel = true →
        ∀ (d : Str) (id : JsNum), decodeURIComponent (tplStr rel.url) = some d →
          extractId d = some id → prs.count id = 1) := by
  constructor
  · intro u v prs hu hv hdec
    simp only [relationStep, hu, hv, if_true, tplStr, hdec]
  · intro wi prs h
    have hs := (resolveCard_workSet S ID w workItem s1 rels hwi hrel wi prs h).2
    have hnd : prs.Nodup := scanRelations_nodup rels [] prs List.nodup_nil hs
    refine ⟨hnd, ?_⟩
    intro rel hin hm d id hd hx
    exact count_eq_one_of_nodup prs id hnd
      (scanRelations_collects rels [] prs hs rel hin hm d id hd hx)

/-! ## The run as a whole -/

theorem contextOf_extends {σ : Type} (S : Services σ) (prId : JsNum) (pr : PullRequest)
    (changes : Option Changes) (w : World σ) :
    w.calls <+: (contextOf S prId pr changes w).2.calls := by
  have h2 : ∀ (r : Str × World σ),
      (if r.1.isEmpty = true then
          ((Res.ok (Aggregated.returned (noCodeFragment prId pr.title)) : Res Aggregated), r.2)
        else (Res.ok (Aggregated.context pr.title r.1), r.2)).2 = r.2 := by
    intro r
    split <;> rfl
  unfold contextOf
  simp only [h2]
  cases changes with
  | none => exact List.prefix_refl _
  | some ch =>
    obtain ⟨ce⟩ := ch
    cases ce with
    | none => exact List.prefix_refl _
    | some entries =>
      simp only [collectContext_eq]
      exact List.prefix_append _ _

theorem aggregate_extends {σ : Type} (S : Services σ) (prId : JsNum) (w : World σ) :
    w.calls <+: (aggregate S prId w).2.calls := by
  unfold aggregate
  simp only [call]
  cases (S.getPullRequestById prId w.state).1 with
  | raises e => exact List.prefix_append _ _
  | nothing => exact List.prefix_append _ _
  | value pr =>
    simp only
    cases (S.getPullRequestIterations pr.repository.id prId
        (S.getPullRequestById prId w.state).2).1 with
    | raises e => exact (List.prefix_append _ _).trans (List.prefix_append _ _)
    | nothing => exact (List.prefix_append _ _).trans (List.prefix_append _ _)
    | value diffs =>
      simp only
      cases diffs.getLast? with
      | none => exact (List.prefix_append _ _).trans (List.prefix_append _ _)
      | some last =>
        simp only
        cases (S.getPullRequestIterationChanges pr.repository.id prId last.id
            (S.getPullRequestIterations pr.repository.id prId
              (S.getPullRequestById prId w.state).2).2).1 with
        | raises e =>
          exact ((List.prefix_append _ _).trans (List.prefix_append _ _)).trans
            (List.prefix_append _ _)
        | nothing =>
          simp only
          refine List.IsPrefix.trans ?_ (contextOf_extends S prId pr none _)
          exact ((List.prefix_append _ _).trans (List.prefix_append _ _)).trans
            (List.prefix_append _ _)
        | value changes =>
          simp only
          refine List.IsPrefix.trans ?_ (contextOf_extends S prId pr (some changes) _)
          exact ((List.prefix_append _ _).trans (List.prefix_append _ _)).trans
            (List.prefix_append _ _)

theorem analisarPR_extends {σ : Type} (S : Services σ) (prId : JsNum) (req : Str) (w : World σ) :
    w.calls <+: (analisarPR S prId req w).2.calls := by
  have hagg := aggregate_extends S prId w
  unfold analisarPR analisarPRTry
  generalize aggregate S prId w = r at hagg
  obtain ⟨r1, w1⟩ := r
  cases r1 with
  | thrown e => exact hagg
  | ok a =>
    cases a with
    | returned f => exact hagg
    | context t c =>
      simp only [call]
      cases (S.generateContent (prompt req c) w1.state).1 <;>
        exact hagg.trans (List.prefix_append _ _)

theorem worldAfter_extends {σ : Type} (S : Services σ) (req : Str) (prIds : List JsNum)
    (w : World σ) : w.calls <+: (worldAfter w (runEach S req prIds w)).calls := by
  induction prIds generalizing w with
  | nil => exact List.prefix_refl _
  | cons p rest ih =>
    rw [runEach, worldAfter_cons]
    exact (analisarPR_extends S p req w).trans (ih _)

theorem analyseAndUpdate_outcome {σ : Type} (cfg : Config) (inp : Input) (S : Services σ)
    (wiId : JsNum) (listaPrs : List JsNum) (w : World σ) :
    (∃ e, (analyseAndUpdate cfg inp S wiId listaPrs w).1 = Res.thrown e) ∨
    (∃ report, (analyseAndUpdate cfg inp S wiId listaPrs w).1 =
      Res.ok (Outcome.updated wiId report)) := by
  unfold analyseAndUpdate
  simp only [call, composeReport_eq]
  cases (S.getWorkItem wiId false w.state).1 with
  | raises e => exact Or.inl ⟨e, rfl⟩
  | nothing => exact Or.inl ⟨_, rfl⟩
  | value workItem =>
    simp only
    generalize S.updateWorkItem _ _ _ _ = r
    rcases r with ⟨_ | e, s⟩
    · exact Or.inr ⟨_, rfl⟩
    · exact Or.inl ⟨e, rfl⟩

theorem analyseAndUpdate_extends {σ : Type} (cfg : Config) (inp : Input) (S : Services σ)
    (wiId : JsNum) (listaPrs : List JsNum) (w : World σ) :
    (w.calls ++ [Call.getWorkItem wiId false]) <+:
      (analyseAndUpdate cfg inp S wiId listaPrs w).2.calls := by
  unfold analyseAndUpdate
  simp only [call, composeReport_eq]
  cases (S.getWorkItem wiId false w.state).1 with
  | raises e => exact List.prefix_refl _
  | nothing => exact List.prefix_refl _
  | value workItem =>
    simp only
    have hp := worldAfter_extends S (requirementsOf workItem) listaPrs
      ⟨(S.getWorkItem wiId false w.state).2, w.calls ++ [Call.getWorkItem wiId false]⟩
    generalize S.updateWorkItem _ _ _ _ = r
    rcases r with ⟨_ | e, s⟩
    · exact hp.trans (List.prefix_append _ _)
    · exact hp.trans (List.prefix_append _ _)

theorem resolvePR_spec {σ : Type} (S : Services σ) (ID : JsNum) (w : World σ) :
    (∃ e w1, resolvePR S ID w = (Res.thrown e, w1) ∧
      (w.calls ++ [Call.getPullRequestById ID]) <+: w1.calls) ∨
    (∃ repo s2, resolvePR S ID w =
      (Res.ok Resolved.nothingToDo,
        ⟨s2, w.calls ++ [Call.getPullRequestById ID, Call.getPullRequestWorkItemRefs repo ID]⟩)) ∨
    (∃ repo s2 wi, resolvePR S ID w =
      (Res.ok (Resolved.workSet wi [ID]),
        ⟨s2, w.calls ++ [Call.getPullRequestById ID, Call.getPullRequestWorkItemRefs repo ID]⟩)) := by
  unfold resolvePR
  simp only [call]
  cases (S.getPullRequestById ID w.state).1 with
  | raises e => exact Or.inl ⟨e, _, rfl, List.prefix_refl _⟩
  | nothing => exact Or.inl ⟨_, _, rfl, List.prefix_refl _⟩
  | value pr =>
    simp only
    cases (S.getPullRequestWorkItemRefs pr.repository.id ID
        (S.getPullRequestById ID w.state).2).1 with
    | raises e => exact Or.inl ⟨e, _, rfl, List.prefix_append _ _⟩
    | nothing =>
      refine Or.inr (Or.inl ⟨pr.repository.id,
        (S.getPullRequestWorkItemRefs pr.repository.id ID (S.getPullRequestById ID w.state).2).2,
        ?_⟩)
      simp
    | value refs =>
      cases refs with
      | nil =>
        refine Or.inr (Or.inl ⟨pr.repository.id,
          (S.getPullRequestWorkItemRefs pr.repository.id ID (S.getPullRequestById ID w.state).2).2,
          ?_⟩)
        simp
      | cons ref rest =>
        refine Or.inr (Or.inr ⟨pr.repository.id,
          (S.getPullRequestWorkItemRefs pr.repository.id ID (S.getPullRequestById ID w.state).2).2,
          (match (split '/' ref.url).getLast? with
            | some last => parseInt last
            | none => none), ?_⟩)
        simp [setAdd]

theorem resolveCard_spec {σ : Type} (S : Services σ) (ID : JsNum) (w : World σ) :
    (∃ e s1, resolveCard S ID w =
      (Res.thrown e, ⟨s1, w.calls ++ [Call.getWorkItem ID true]⟩)) ∨
    (∃ s1, resolveCard S ID w =
      (Res.ok Resolved.nothingToDo, ⟨s1, w.calls ++ [Call.getWorkItem ID true]⟩)) ∨
    (∃ s1 prs, resolveCard S ID w =
      (Res.ok (Resolved.workSet ID prs), ⟨s1, w.calls ++ [Call.getWorkItem ID true]⟩)) := by
  cases h : S.getWorkItem ID true w.state with
  | mk r s1 =>
    cases r with
    | raises e =>
      refine Or.inl ⟨e, s1, ?_⟩
      simp [resolveCard, call, h]
    | nothing =>
      refine Or.inl ⟨typeError "relations", s1, ?_⟩
      simp [resolveCard, call, h]
    | value workItem =>
      rw [resolveCard_eq S ID w workItem s1 h]
      cases (match workItem.relations with
              | some relations => scanRelations relations []
              | none => Res.ok []) with
      | thrown e => exact Or.inl ⟨e, s1, rfl⟩
      | ok prs =>
        simp only
        split
        · exact Or.inr (Or.inl ⟨s1, rfl⟩)
        · exact Or.inr (Or.inr ⟨s1, prs, rfl⟩)

theorem main_proceeds {σ : Type} (cfg : Config) (inp : Input) (S : Services σ) (w : World σ)
    (s0 : σ) (hpat : truthyStr cfg.ADO_PAT = true) (hkey : truthyStr cfg.GOOGLE_API_KEY = true)
    (hconn : S.connect w.state = (none, s0))
    (hid : truthyNum (parseInt (trim inp.idInput)) = true) :
    main cfg inp S w =
      catchFatal
        (if trim inp.modeInput = "1".toList then
          match resolvePR S (parseInt (trim inp.idInput)) ⟨s0, w.calls ++ [Call.connect]⟩ with
          | (Res.thrown e, w1) => (Res.thrown e, w1)
          | (Res.ok Resolved.nothingToDo, w1) => (Res.ok Outcome.notLinked, w1)
          | (Res.ok (Resolved.workSet wiId listaPrs), w1) =>
            analyseAndUpdate cfg inp S wiId listaPrs w1
        else
          match resolveCard S (parseInt (trim inp.idInput)) ⟨s0, w.calls ++ [Call.connect]⟩ with
          | (Res.thrown e, w1) => (Res.thrown e, w1)
          | (Res.ok Resolved.nothingToDo, w1) => (Res.ok Outcome.noLinkedPRs, w1)
          | (Res.ok (Resolved.workSet wiId listaPrs), w1) =>
            analyseAndUpdate cfg inp S wiId listaPrs w1) := by
  simp [main, mainTry, call, hpat, hkey, hconn, hid]

/-- How a run that passed the ID test ends, with the shape of its call log:
either an exception was caught, or resolution found nothing (and only the
resolution calls were made), or the update was written. -/
theorem main_after_id {σ : Type} (cfg : Config) (inp : Input) (S : Services σ) (w : World σ)
    (s0 : σ) (hpat : truthyStr cfg.ADO_PAT = true) (hkey : truthyStr cfg.GOOGLE_API_KEY = true)
    (hconn : S.connect w.state = (none, s0))
    (hid : truthyNum (parseInt (trim inp.idInput)) = true) :
    ((w.calls ++ [Call.connect,
        if trim inp.modeInput = "1".toList then Call.getPullRequestById (parseInt (trim inp.idInput))
        else Call.getWorkItem (parseInt (trim inp.idInput)) true]) <+:
      (main cfg inp S w).2.calls) ∧
    ((∃ e, (main cfg inp S w).1 = Outcome.fatal e) ∨
      (∃ wiId report, (main cfg inp S w).1 = Outcome.updated wiId report) ∨
      (trim inp.modeInput = "1".toList ∧ ∃ repo s2, main cfg inp S w =
        (Outcome.notLinked, ⟨s2, w.calls ++ [Call.connect,
          Call.getPullRequestById (parseInt (trim inp.idInput)),
          Call.getPullRequestWorkItemRefs repo (parseInt (trim inp.idInput))]⟩)) ∨
      (trim inp.modeInput ≠ "1".toList ∧ ∃ s1, main cfg inp S w =
        (Outcome.noLinkedPRs, ⟨s1, w.calls ++ [Call.connect,
          Call.getWorkItem (parseInt (trim inp.idInput)) true]⟩))) := by
  rw [main_proceeds cfg inp S w s0 hpat hkey hconn hid]
  have hupd : ∀ (wiId : JsNum) (prs : List JsNum) (w1 : World σ),
      (∃ e, (catchFatal (analyseAndUpdate cfg inp S wiId prs w1)).1 = Outcome.fatal e) ∨
      (∃ wi report, (catchFatal (analyseAndUpdate cfg inp S wiId prs w1)).1 =
        Outcome.updated wi report) := by
    intro wiId prs w1
    rcases analyseAndUpdate_outcome cfg inp S wiId prs w1 with ⟨e, he⟩ | ⟨rep, hrep⟩
    · left
      refine ⟨e, ?_⟩
      generalize analyseAndUpdate cfg inp S wiId prs w1 = r at he
      obtain ⟨r1, r2⟩ := r
      simp only at he
      subst he
      rfl
    · right
      refine ⟨wiId, rep, ?_⟩
      generalize analyseAndUpdate cfg inp S wiId prs w1 = r at hrep
      obtain ⟨r1, r2⟩ := r
      simp only at hrep
      subst hrep
      rfl
  have hcalls : ∀ r : Res Outcome × World σ, (catchFatal r).2 = r.2 := by
    rintro ⟨_ | _, _⟩ <;> rfl
  by_cases hmode : trim inp.modeInput = "1".toList
  · simp only [hmode, if_true]
    rcases resolvePR_spec S (parseInt (trim inp.idInput)) ⟨s0, w.calls ++ [Call.connect]⟩ with
      ⟨e, w1, h, hp⟩ | ⟨repo, s2, h⟩ | ⟨repo, s2, wi, h⟩
    · rw [h]
      refine ⟨?_, Or.inl ⟨e, rfl⟩⟩
      simpa [catchFatal] using hp
    · rw [h]
      refine ⟨?_, Or.inr (Or.inr (Or.inl ⟨trivial, repo, s2, ?_⟩))⟩
      · simp [catchFatal]
      · simp [catchFatal]
    · rw [h]
      simp only
      refine ⟨?_, ?_⟩
      · rw [hcalls]
        refine List.IsPrefix.trans ?_ (analyseAndUpdate_extends cfg inp S wi _ _)
        simp
      · rcases hupd wi [parseInt (trim inp.idInput)] ⟨s2, w.calls ++ [Call.connect] ++
            [Call.getPullRequestById (parseInt (trim inp.idInput)),
              Call.getPullRequestWorkItemRefs repo (parseInt (trim inp.idInput))]⟩ with h1 | h1
        · exact Or.inl h1
        · exact Or.inr (Or.inl h1)
  · simp only [hmode, if_false]
    rcases resolveCard_spec S (parseInt (trim inp.idInput)) ⟨s0, w.calls ++ [Call.connect]⟩ with
      ⟨e, s1, h⟩ | ⟨s1, h⟩ | ⟨s1, prs, h⟩
    · rw [h]
      refine ⟨?_, Or.inl ⟨e, rfl⟩⟩
      simp [catchFatal]
    · rw [h]
      refine ⟨?_, Or.inr (Or.inr (Or.inr ⟨hmode, s1, ?_⟩))⟩
      · simp [catchFatal]
      · simp [catchFatal]
    · rw [h]
      simp only
      refine ⟨?_, ?_⟩
      · rw [hcalls]
        refine List.IsPrefix.trans ?_ (analyseAndUpdate_extends cfg inp S _ _ _)
        simp
      · rcases hupd (parseInt (trim inp.idInput)) prs
            ⟨s1, w.calls ++ [Call.connect] ++
              [Call.getWorkItem (parseInt (trim inp.idInput)) true]⟩ with h1 | h1
        · exact Or.inl h1
        · exact Or.inr (Or.inl h1)

theorem truthyStr_cases (x : Option Str) : truthyStr x = true ∨ truthyStr x = false := by
  cases truthyStr x
  · exact Or.inr rfl
  · exact Or.inl rfl

theorem main_invalid_id {σ : Type} (cfg : Config) (inp : Input) (S : Services σ) (w : World σ)
    (s0 : σ) (hpat : truthyStr cfg.ADO_PAT = true) (hkey : truthyStr cfg.GOOGLE_API_KEY = true)
    (hconn : S.connect w.state = (none, s0))
    (hid : truthyNum (parseInt (trim inp.idInput)) = false) :
    main cfg inp S w = (Outcome.invalidId, ⟨s0, w.calls ++ [Call.connect]⟩) := by
  simp [main, mainTry, call, hpat, hkey, hconn, hid, catchFatal]

theorem main_connect_raises {σ : Type} (cfg : Config) (inp : Input) (S : Services σ)
    (w : World σ) (s0 : σ) (e : JsError) (hpat : truthyStr cfg.ADO_PAT = true)
    (hkey : truthyStr cfg.GOOGLE_API_KEY = true) (hconn : S.connect w.state = (some e, s0)) :
    main cfg inp S w = (Outcome.fatal e, ⟨s0, w.calls ++ [Call.connect]⟩) := by
  simp [main, mainTry, call, hpat, hkey, hconn, catchFatal]

theorem main_missing_credentials {σ : Type} (cfg : Config) (inp : Input) (S : Services σ)
    (w : World σ) (h : truthyStr cfg.ADO_PAT = false ∨ truthyStr cfg.GOOGLE_API_KEY = false) :
    main cfg inp S w = (Outcome.missingCredentials, w) := by
  simp [main, h]

theorem truthyNum_iff (x : JsNum) : truthyNum x = true ↔ ∃ n : Int, x = some n ∧ n ≠ 0 := by
  cases x with
  | none => simp [truthyNum]
  | some n => simp [truthyNum]

/-- Claim C8. In PR mode on the PR id `p` typed by the operator, once the PR is
returned: when the platform returns no work-item reference (nothing, or an
empty list) the run ends as `notLinked` and the only calls made are the
connection and the two resolution calls, so no aggregation, generation or
update call; when it returns at least one reference the work list is exactly
`[p]`, and the rest of the run is the analysis of that single PR, whatever the
referenced work item links to. -/
theorem pr_mode_work_set {σ : Type} (cfg : Config) (inp : Input) (S : Services σ)
    (w : World σ) (pr : PullRequest) (s0 s1 : σ)
    (hpat : truthyStr cfg.ADO_PAT = true) (hkey : truthyStr cfg.GOOGLE_API_KEY = true)
    (hconn : S.connect w.state = (none, s0))
    (hmode : trim inp.modeInput = "1".toList)
    (hid : truthyNum (parseInt (trim inp.idInput)) = true)
    (hpr : S.getPullRequestById (parseInt (trim inp.idInput)) s0 = (Reply.value pr, s1)) :
    (∀ (r : Reply (List WorkItemRef)) (s2 : σ),
      S.getPullRequestWorkItemRefs pr.repository.id (parseInt (trim inp.idInput)) s1 = (r, s2) →
      r = Reply.nothing ∨ r = Reply.value [] →
      main cfg inp S w =
        (Outcome.notLinked,
          ⟨s2, w.calls ++ [Call.connect,
            Call.getPullRequestById (parseInt (trim inp.idInput)),
            Call.getPullRequestWorkItemRefs pr.repository.id (parseInt (trim inp.idInput))]⟩)) ∧
    (∀ (ref : WorkItemRef) (rest : List WorkItemRef) (s2 : σ),
      S.getPullRequestWorkItemRefs pr.repository.id (parseInt (trim inp.idInput)) s1 =
        (Reply.value (ref :: rest), s2) →
      ∃ wiId : JsNum,
        resolvePR S (parseInt (trim inp.idInput)) ⟨s0, w.calls ++ [Call.connect]⟩ =
          (Res.ok (Resolved.workSet wiId [parseInt (trim inp.idInput)]),
            ⟨s2, w.calls ++ [Call.connect,
              Call.getPullRequestById (parseInt (trim inp.idInput)),
              Call.getPullRequestWorkItemRefs pr.repository.id (parseInt (trim inp.idInput))]⟩) ∧
        main cfg inp S w =
          catchFatal (analyseAndUpdate cfg inp S wiId [parseInt (trim inp.idInput)]
            ⟨s2, w.calls ++ [Call.connect,
              Call.getPullRequestById (parseInt (trim inp.idInput)),
              Call.getPullRequestWorkItemRefs pr.repository.id (parseInt (trim inp.idInput))]⟩)) := by
  constructor
  · intro r s2 hrefs hr
    rw [main_proceeds cfg inp S w s0 hpat hkey hconn hid]
    rcases hr with rfl | rfl <;>
      simp [hmode, resolvePR, call, hpr, hrefs, catchFatal]
  · intro ref rest s2 hrefs
    refine ⟨(match (split '/' ref.url).getLast? with
              | some last => parseInt last
              | none => none), ?_, ?_⟩
    · simp [resolvePR, call, hpr, hrefs, setAdd]
    · rw [main_proceeds cfg inp S w s0 hpat hkey hconn hid]
      simp [hmode, resolvePR, call, hpr, hrefs, setAdd]

/-- The test `if (!ID)` of line 143, with the credentials present and the
clients created: an input whose `parseInt` is `NaN` or `0` ends the run as
invalid ID with no call made after the connection; for any other parsed number
the test does not fire and the first resolution call is made with it. -/
theorem id_test_of_line_143 {σ : Type} (cfg : Config) (inp : Input) (S : Services σ)
    (w : World σ) (s0 : σ)
    (hpat : truthyStr cfg.ADO_PAT = true) (hkey : truthyStr cfg.GOOGLE_API_KEY = true)
    (hconn : S.connect w.state = (none, s0)) :
    ((parseInt (trim inp.idInput) = none ∨ parseInt (trim inp.idInput) = some 0) →
      main cfg inp S w = (Outcome.invalidId, ⟨s0, w.calls ++ [Call.connect]⟩)) ∧
    (∀ n : Int, parseInt (trim inp.idInput) = some n → n ≠ 0 →
      (main cfg inp S w).1 ≠ Outcome.invalidId ∧
      (w.calls ++ [Call.connect,
          if trim inp.modeInput = "1".toList then Call.getPullRequestById (some n)
          else Call.getWorkItem (some n) true]) <+: (main cfg inp S w).2.calls) := by
  constructor
  · intro h
    apply main_invalid_id cfg inp S w s0 hpat hkey hconn
    rcases h with h | h <;> simp [h, truthyNum]
  · intro n hn hne
    have hid : truthyNum (parseInt (trim inp.idInput)) = true :=
      (truthyNum_iff _).mpr ⟨n, hn, hne⟩
    obtain ⟨hpre, hout⟩ := main_after_id cfg inp S w s0 hpat hkey hconn hid
    rw [hn] at hpre
    refine ⟨?_, hpre⟩
    rcases hout with ⟨e, h⟩ | ⟨wi, rep, h⟩ | ⟨_, repo, s2, h⟩ | ⟨_, s1, h⟩ <;>
      · rw [h]
        intro hc
        cases hc

/-- The exit code of a run, and the calls of a run that ends on a resolution
failure: `process.exit(1)` is reached exactly when the credentials are missing
or the ID test fires, and a run ending as `notLinked` or `noLinkedPRs` has made
no update call. -/
theorem main_exit_code_and_resolution_failure {σ : Type} (cfg : Config) (inp : Input)
    (S : Services σ) (w : World σ) :
    ((main cfg inp S w).1.exitCode ≠ 0 ↔
      ((truthyStr cfg.ADO_PAT = false ∨ truthyStr cfg.GOOGLE_API_KEY = false) ∨
        ((S.connect w.state).1 = none ∧ truthyNum (parseInt (trim inp.idInput)) = false))) ∧
    (((main cfg inp S w).1 = Outcome.notLinked ∨ (main cfg inp S w).1 = Outcome.noLinkedPRs) →
      (main cfg inp S w).1.exitCode = 0 ∧
      ∃ tail : List Call, (main cfg inp S w).2.calls = w.calls ++ tail ∧
        ∀ (path value : Str) (id : JsNum), Call.updateWorkItem path value id ∉ tail) := by
  rcases truthyStr_cases cfg.ADO_PAT with hpat | hpat
  · rcases truthyStr_cases cfg.GOOGLE_API_KEY with hkey | hkey
    · cases hconn : S.connect w.state with
      | mk r s0 =>
        have hno : ¬ (truthyStr cfg.ADO_PAT = false ∨ truthyStr cfg.GOOGLE_API_KEY = false) := by
          simp [hpat, hkey]
        cases r with
        | some e =>
          rw [main_connect_raises cfg inp S w s0 e hpat hkey hconn]
          simp [Outcome.exitCode, hno]
        | none =>
          cases hid : truthyNum (parseInt (trim inp.idInput)) with
          | false =>
            rw [main_invalid_id cfg inp S w s0 hpat hkey hconn hid]
            simp [Outcome.exitCode]
          | true =>
            obtain ⟨_, hout⟩ := main_after_id cfg inp S w s0 hpat hkey hconn hid
            rcases hout with ⟨e, h⟩ | ⟨wi, rep, h⟩ | ⟨_, repo, s2, h⟩ | ⟨_, s1, h⟩
            · simp [h, Outcome.exitCode, hno]
            · simp [h, Outcome.exitCode, hno]
            · rw [h]
              simp only [Outcome.exitCode, ne_eq, not_true_eq_false, hno, false_or,
                Bool.true_eq_false, and_false, true_or, true_and, forall_const, iff_self]
              exact ⟨_, rfl, by simp⟩
            · rw [h]
              simp only [Outcome.exitCode, ne_eq, not_true_eq_false, hno, false_or,
                Bool.true_eq_false, and_false, or_true, true_and, forall_const, iff_self]
              exact ⟨_, rfl, by simp⟩
    · rw [main_missing_credentials cfg inp S w (Or.inr hkey)]
      simp [Outcome.exitCode, hkey]
  · rw [main_missing_credentials cfg inp S w (Or.inl hpat)]
    simp [Outcome.exitCode, hpat]

/-- Claim C9, as amended. In every run of `main`: a resolution failure
(`notLinked` in PR mode, `noLinkedPRs` in card mode) ends the run by a return,
without any update call; a raising final update is caught by the handler of
`main` and reported as fatal, and so is every other exception raised in `main`
outside `analisarPR`, for instance by the creation of the clients or by the
fetch of the requirements; and the loop over the PRs never raises, so no failure
inside `analisarPR` reaches that handler. -/
theorem failures_reach_the_handler {σ : Type} (cfg : Config) (inp : Input)
    (S : Services σ) (w : World σ) :
    (((main cfg inp S w).1 = Outcome.notLinked ∨ (main cfg inp S w).1 = Outcome.noLinkedPRs) →
      ∃ tail : List Call, (main cfg inp S w).2.calls = w.calls ++ tail ∧
        ∀ (path value : Str) (id : JsNum), Call.updateWorkItem path value id ∉ tail) ∧
    (∀ (wiId : JsNum) (listaPrs : List JsNum) (w0 : World σ) (workItem : WorkItem) (s1 s2 : σ)
        (e : JsError),
      S.getWorkItem wiId false w0.state = (Reply.value workItem, s1) →
      S.updateWorkItem (fieldPath cfg)
          (reportHeader inp ++ ((runEach S (requirementsOf workItem) listaPrs
            ⟨s1, w0.calls ++ [Call.getWorkItem wiId false]⟩).map
              (fun r => fragmentText r.1)).flatten) wiId
          (worldAfter ⟨s1, w0.calls ++ [Call.getWorkItem wiId false]⟩
            (runEach S (requirementsOf workItem) listaPrs
              ⟨s1, w0.calls ++ [Call.getWorkItem wiId false]⟩)).state = (some e, s2) →
      (catchFatal (analyseAndUpdate cfg inp S wiId listaPrs w0)).1 = Outcome.fatal e ∧
      (catchFatal (analyseAndUpdate cfg inp S wiId listaPrs w0)).2.calls.getLast? =
        some (Call.updateWorkItem (fieldPath cfg)
          (reportHeader inp ++ ((runEach S (requirementsOf workItem) listaPrs
            ⟨s1, w0.calls ++ [Call.getWorkItem wiId false]⟩).map
              (fun r => fragmentText r.1)).flatten) wiId)) ∧
    (∀ (wiId : JsNum) (listaPrs : List JsNum) (w0 : World σ) (s1 : σ) (e : JsError),
      S.getWorkItem wiId false w0.state = (Reply.raises e, s1) →
      catchFatal (analyseAndUpdate cfg inp S wiId listaPrs w0) =
        (Outcome.fatal e, ⟨s1, w0.calls ++ [Call.getWorkItem wiId false]⟩)) ∧
    (∀ (s0 : σ) (e : JsError),
      truthyStr cfg.ADO_PAT = true → truthyStr cfg.GOOGLE_API_KEY = true →
      S.connect w.state = (some e, s0) →
      main cfg inp S w = (Outcome.fatal e, ⟨s0, w.calls ++ [Call.connect]⟩)) ∧
    (∀ (req : Str) (prs : List JsNum) (acc : Str) (w0 : World σ),
      ∃ report, (composeReport S req prs acc w0).1 = Res.ok report) := by
  refine ⟨?_, ?_, ?_, ?_, ?_⟩
  · intro h
    exact ((main_exit_code_and_resolution_failure cfg inp S w).2 h).2
  · intro wiId listaPrs w0 workItem s1 s2 e hwi hupd
    have h : analyseAndUpdate cfg inp S wiId listaPrs w0 =
        (Res.thrown e, ⟨s2, (worldAfter ⟨s1, w0.calls ++ [Call.getWorkItem wiId false]⟩
            (runEach S (requirementsOf workItem) listaPrs
              ⟨s1, w0.calls ++ [Call.getWorkItem wiId false]⟩)).calls ++
          [Call.updateWorkItem (fieldPath cfg)
            (reportHeader inp ++ ((runEach S (requirementsOf workItem) listaPrs
              ⟨s1, w0.calls ++ [Call.getWorkItem wiId false]⟩).map
                (fun r => fragmentText r.1)).flatten) wiId]⟩) := by
      simp only [analyseAndUpdate, call, hwi, composeReport_eq, hupd]
    rw [h]
    exact ⟨rfl, List.getLast?_concat _⟩
  · intro wiId listaPrs w0 s1 e hwi
    simp [analyseAndUpdate, call, hwi, catchFatal]
  · intro s0 e hpat hkey hconn
    exact main_connect_raises cfg inp S w s0 e hpat hkey hconn
  · intro req prs acc w0
    rw [composeReport_eq]
    exact ⟨_, rfl⟩

/-! ## Closed instances -/

set_option maxRecDepth 100000 in
/-- Instance of claim C1. Card mode on work item 500 linking PRs 42 and 43: the
first generation call answers `APROVADO`, a line feed and `Tudo certo.`, the
second raises `quota`. The report is the header, the verdict of PR 42 and the
error fragment of PR 43, and the update is the last call, made with that
report. -/
theorem report_has_one_fragment_per_pr_witness :
    Scenario.services.getWorkItem (some 500) false
        (⟨0, [Call.connect, Call.getWorkItem (some 500) true]⟩ : World Nat).state =
      (Reply.value Scenario.workItem500, 0) ∧
    (aggregate Scenario.services (some 42)
        ⟨0, [Call.connect, Call.getWorkItem (some 500) true] ++
          [Call.getWorkItem (some 500) false]⟩).1 =
      Res.ok (Aggregated.context "Add rule".toList "\n--- ARQUIVO: a.txt ---\nhello\n".toList) ∧
    Scenario.services.generateContent
        (prompt (requirementsOf Scenario.workItem500) "\n--- ARQUIVO: c.txt ---\nbye\n".toList) 1 =
      (Reply.raises ⟨"quota".toList⟩, 2) ∧
    (analyseAndUpdate Scenario.config Scenario.cardInput Scenario.services (some 500)
        [some 42, some 43] ⟨0, [Call.connect, Call.getWorkItem (some 500) true]⟩).2.calls.getLast? =
      some (Call.updateWorkItem "/fields/Custom.Analysis".toList
        "<h2>Relatório Gemini AI (Completo)</h2><p>Data: today</p><hr>\n        <div style=\"margin-bottom: 20px; border-bottom: 1px solid #ccc; padding-bottom: 10px;\">\n            <h3>Análise PR #42: Add rule</h3>\n            APROVADO<br>Tudo certo.\n        </div>\n        <p style=\"color:red\">Erro ao analisar PR #43: quota</p>".toList
        (some 500)) ∧
    main Scenario.config Scenario.cardInput Scenario.services Scenario.start =
      (Outcome.updated (some 500)
        "<h2>Relatório Gemini AI (Completo)</h2><p>Data: today</p><hr>\n        <div style=\"margin-bottom: 20px; border-bottom: 1px solid #ccc; padding-bottom: 10px;\">\n            <h3>Análise PR #42: Add rule</h3>\n            APROVADO<br>Tudo certo.\n        </div>\n        <p style=\"color:red\">Erro ao analisar PR #43: quota</p>".toList,
        ⟨2, [Call.connect, Call.getWorkItem (some 500) true, Call.getWorkItem (some 500) false,
          Call.getPullRequestById (some 42),
          Call.getPullRequestIterations "repo".toList (some 42),
          Call.getPullRequestIterationChanges "repo".toList (some 42) 2,
          Call.getBlobContent "repo".toList "x".toList "proj".toList,
          Call.getBlobContent "repo".toList "y".toList "proj".toList,
          Call.generateContent
            (prompt (requirementsOf Scenario.workItem500) "\n--- ARQUIVO: a.txt ---\nhello\n".toList),
          Call.getPullRequestById (some 43),
          Call.getPullRequestIterations "repo".toList (some 43),
          Call.getPullRequestIterationChanges "repo".toList (some 43) 1,
          Call.getBlobContent "repo".toList "z".toList "proj".toList,
          Call.generateContent
            (prompt (requirementsOf Scenario.workItem500) "\n--- ARQUIVO: c.txt ---\nbye\n".toList),
          Call.updateWorkItem "/fields/Custom.Analysis".toList
            "<h2>Relatório Gemini AI (Completo)</h2><p>Data: today</p><hr>\n        <div style=\"margin-bottom: 20px; border-bottom: 1px solid #ccc; padding-bottom: 10px;\">\n            <h3>Análise PR #42: Add rule</h3>\n            APROVADO<br>Tudo certo.\n        </div>\n        <p style=\"color:red\">Erro ao analisar PR #43: quota</p>".toList
            (some 500)]⟩) :=
  ⟨rfl, by rfl, by rfl,
    (congrArg List.getLast?
      ((report_has_one_fragment_per_pr Scenario.services Scenario.config Scenario.cardInput
        (some 500) [some 42, some 43] ⟨0, [Call.connect, Call.getWorkItem (some 500) true]⟩
        Scenario.workItem500 0 rfl).2.2 (some 42) (some 43)
        "Add rule".toList "\n--- ARQUIVO: a.txt ---\nhello\n".toList "APROVADO\nTudo certo.".toList
        "Fix rule".toList "\n--- ARQUIVO: c.txt ---\nbye\n".toList ⟨"quota".toList⟩
        (aggregate Scenario.services (some 42)
          ⟨0, [Call.connect, Call.getWorkItem (some 500) true] ++
            [Call.getWorkItem (some 500) false]⟩).2
        (aggregate Scenario.services (some 43)
          ⟨1, (aggregate Scenario.services (some 42)
            ⟨0, [Call.connect, Call.getWorkItem (some 500) true] ++
              [Call.getWorkItem (some 500) false]⟩).2.calls ++
            [Call.generateContent (prompt (requirementsOf Scenario.workItem500)
              "\n--- ARQUIVO: a.txt ---\nhello\n".toList)]⟩).2
        1 2 rfl (by rfl) (by rfl) (by rfl) (by rfl))).trans (by rfl),
    by rfl⟩

set_option maxRecDepth 100000 in
/-- Instance of claim C2. Pull request 42: `a.txt` holds `hello`, `b.bin` holds a NUL; the context is
the fragment of `a.txt` alone. -/
theorem code_context_is_readable_files_witness :
    Scenario.services.getPullRequestById (some 42) Scenario.start.state =
      (Reply.value Scenario.pr42, 0) ∧
    (collectContext Scenario.services "repo".toList "proj".toList Scenario.entries42 []
        ⟨0, []⟩).1 = "\n--- ARQUIVO: a.txt ---\nhello\n".toList ∧
    (aggregate Scenario.services (some 42) Scenario.start).1 =
      Res.ok (Aggregated.context "Add rule".toList "\n--- ARQUIVO: a.txt ---\nhello\n".toList) :=
  ⟨rfl,
    ((code_context_is_readable_files Scenario.services (some 42) Scenario.start Scenario.pr42
      [⟨1⟩, ⟨2⟩] ⟨2⟩ Scenario.entries42 0 0 0 rfl rfl rfl rfl).1 []).trans (by rfl),
    by rfl⟩

set_option maxRecDepth 100000 in
/-- Instance of claim C3 as amended. The same identifier linked with escaped
and with plain slashes is resolved once. -/
theorem resolved_set_counts_each_id_once_witness :
    (resolveCard (Scenario.servicesWith Scenario.duplicateRelations) (some 500)
        Scenario.start).1 = Res.ok (Resolved.workSet (some 500) [some 42]) ∧
    ([some (42 : Int)] : List JsNum).Nodup ∧
    ([some (42 : Int)] : List JsNum).count (some 42) = 1 :=
  ⟨by rfl,
    ((resolved_set_counts_each_id_once (Scenario.servicesWith Scenario.duplicateRelations)
      (some 500) Scenario.start
      ⟨⟨"Rule".toList, some "Do it".toList, none⟩, some Scenario.duplicateRelations⟩ 0
      Scenario.duplicateRelations rfl rfl).2 (some 500) [some 42] (by rfl)).1,
    ((resolved_set_counts_each_id_once (Scenario.servicesWith Scenario.duplicateRelations)
      (some 500) Scenario.start
      ⟨⟨"Rule".toList, some "Do it".toList, none⟩, some Scenario.duplicateRelations⟩ 0
      Scenario.duplicateRelations rfl rfl).2 (some 500) [some 42] (by rfl)).2
        ⟨some "vstfs:///Git/pullrequestid/p/r/42".toList⟩ (by decide) (by decide)
        "vstfs:///Git/pullrequestid/p/r/42".toList (some 42) (by decide) (by decide)⟩

/-- Claim C3 as stated fails. A link whose marker is itself escaped decodes to the same string as the
plain link, yet the plain link resolves to 42 and the escaped one to nothing. -/
theorem reencoded_marker_is_not_resolved :
    decodeURIComponent Scenario.encodedUrl = decodeURIComponent Scenario.plainUrl ∧
    decodeURIComponent Scenario.encodedUrl = some Scenario.plainUrl ∧
    scanRelations [⟨some Scenario.plainUrl⟩] [] = Res.ok [some 42] ∧
    scanRelations [⟨some Scenario.encodedUrl⟩] [] = Res.ok [] ∧
    scanRelations [⟨some Scenario.plainUrl⟩, ⟨some Scenario.encodedUrl⟩] [] ≠
      scanRelations [⟨some Scenario.encodedUrl⟩] [] := by
  decide

set_option maxRecDepth 100000 in
/-- Instance of claim C4. Pull request 42 has iterations 1 and 2: the changes of
iteration 2, the greatest id, are fetched and no other changes call is made. -/
theorem changes_fetched_for_latest_iteration_witness :
    Scenario.services.getPullRequestIterations Scenario.pr42.repository.id (some 42) 0 =
      (Reply.value [⟨1⟩, ⟨2⟩], 0) ∧
    [(⟨1⟩ : Iteration), ⟨2⟩].Pairwise (fun a b => a.id ≤ b.id) ∧
    (analisarPR Scenario.services (some 42) [] Scenario.start).2.calls.take 3 =
      [Call.getPullRequestById (some 42),
        Call.getPullRequestIterations "repo".toList (some 42),
        Call.getPullRequestIterationChanges "repo".toList (some 42) 2] ∧
    ∃ latest ∈ [(⟨1⟩ : Iteration), ⟨2⟩],
      (∀ it ∈ [(⟨1⟩ : Iteration), ⟨2⟩], it.id ≤ latest.id) ∧
      ∃ tail : List Call,
        (analisarPR Scenario.services (some 42) [] Scenario.start).2.calls =
          Scenario.start.calls ++ [Call.getPullRequestById (some 42),
            Call.getPullRequestIterations Scenario.pr42.repository.id (some 42),
            Call.getPullRequestIterationChanges Scenario.pr42.repository.id (some 42)
              latest.id] ++ tail ∧
        ∀ c ∈ tail, ∀ (repo : Str) (p : JsNum) (i : Int),
          c ≠ Call.getPullRequestIterationChanges repo p i :=
  ⟨rfl, by decide, by rfl,
    changes_fetched_for_latest_iteration Scenario.services (some 42) [] Scenario.start
      Scenario.pr42 [⟨1⟩, ⟨2⟩] 0 0 rfl rfl (by decide) (by decide)⟩

set_option maxRecDepth 100000 in
/-- Claim C5 at its failing input. A work item whose second pull-request link
holds the malformed escape `%zz`: the relation is not skipped; the `URIError` of
`decodeURIComponent` leaves the scan, reaches the handler of `main` and ends
the run before any analysis or update, although the first link resolves to 42
when taken alone. -/
theorem malformed_escape_aborts_the_run :
    scanRelations [⟨some "vstfs:///Git/PullRequestId/42".toList⟩] [] = Res.ok [some 42] ∧
    scanRelations Scenario.malformedRelations [] = Res.thrown uriError ∧
    main Scenario.config Scenario.cardInput (Scenario.servicesWith Scenario.malformedRelations)
        Scenario.start =
      (Outcome.fatal uriError, ⟨0, [Call.connect, Call.getWorkItem (some 500) true]⟩) := by
  refine ⟨by decide, by decide, by rfl⟩

set_option maxRecDepth 100000 in
/-- Instance of claim C6. Pull request 42 when every blob is binary: the placeholder is returned and
the five calls made are the metadata calls and the two fetches. -/
theorem unreadable_pr_gives_placeholder_witness :
    Scenario.binaryServices.getPullRequestIterationChanges Scenario.pr42.repository.id
        (some 42) (⟨2⟩ : Iteration).id 0 = (Reply.value ⟨some Scenario.entries42⟩, 0) ∧
    (∀ p ∈ (fetches Scenario.binaryServices Scenario.pr42.repository.id
        Scenario.pr42.repository.project.name (entriesOf (Reply.value ⟨some Scenario.entries42⟩))
        0).1, readablePiece p = none) ∧
    (analisarPR Scenario.binaryServices (some 42) "req".toList Scenario.start).1 =
      Res.ok "<h3>PR #42: Add rule</h3><p><em>Nenhum código legível.</em></p><hr>".toList ∧
    (analisarPR Scenario.binaryServices (some 42) "req".toList Scenario.start).2.calls =
      [Call.getPullRequestById (some 42),
        Call.getPullRequestIterations "repo".toList (some 42),
        Call.getPullRequestIterationChanges "repo".toList (some 42) 2,
        Call.getBlobContent "repo".toList "x".toList "proj".toList,
        Call.getBlobContent "repo".toList "y".toList "proj".toList] :=
  ⟨rfl, by decide,
    ((unreadable_pr_gives_placeholder Scenario.binaryServices (some 42) "req".toList
      Scenario.start Scenario.pr42 [⟨1⟩, ⟨2⟩] ⟨2⟩ (Reply.value ⟨some Scenario.entries42⟩) 0 0 0
      rfl rfl rfl rfl (by intro e h; cases h) (by decide)).1).trans (by rfl),
    ((unreadable_pr_gives_placeholder Scenario.binaryServices (some 42) "req".toList
      Scenario.start Scenario.pr42 [⟨1⟩, ⟨2⟩] ⟨2⟩ (Reply.value ⟨some Scenario.entries42⟩) 0 0 0
      rfl rfl rfl rfl (by intro e h; cases h) (by decide)).2.1).trans (by rfl)⟩

set_option maxRecDepth 100000 in
/-- Instance of claim C7. Work item 500 with the relations `.../pullRequestId/42` and
`.../workItems/9`: the resolved set is `{42}`, and 42 comes from the first
relation. -/
theorem only_pr_relations_contribute_witness :
    (resolveCard (Scenario.servicesWith Scenario.specRelations) (some 500) Scenario.start).1 =
      Res.ok (Resolved.workSet (some 500) [some 42]) ∧
    isPrRelation ⟨some ".../workItems/9".toList⟩ = false ∧
    ∃ rel ∈ Scenario.specRelations, isPrRelation rel = true ∧
      ∃ d, decodeURIComponent (tplStr rel.url) = some d ∧ extractId d = some (some 42) :=
  ⟨by rfl, by decide,
    (only_pr_relations_contribute (Scenario.servicesWith Scenario.specRelations) (some 500)
      Scenario.start ⟨⟨"Rule".toList, some "Do it".toList, none⟩, some Scenario.specRelations⟩ 0
      Scenario.specRelations rfl rfl).2.2.2 (some 500) [some 42] (by rfl) (some 42)
      (List.mem_singleton_self _)⟩

set_option maxRecDepth 100000 in
/-- Instance of claim C8. PR mode on pull request 7 without work-item reference: the run ends as
`notLinked` after the connection and the two resolution calls. -/
theorem pr_mode_work_set_witness :
    truthyNum (parseInt (trim Scenario.prInput.idInput)) = true ∧
    Scenario.unlinkedServices.getPullRequestWorkItemRefs "repo".toList (some 7) 0 =
      (Reply.value [], 0) ∧
    main Scenario.config Scenario.prInput Scenario.unlinkedServices Scenario.start =
      (Outcome.notLinked,
        ⟨0, [Call.connect, Call.getPullRequestById (some 7),
          Call.getPullRequestWorkItemRefs "repo".toList (some 7)]⟩) :=
  ⟨by decide, rfl,
    (pr_mode_work_set Scenario.config Scenario.prInput Scenario.unlinkedServices Scenario.start
      ⟨"Lone".toList, ⟨"repo".toList, ⟨"proj".toList⟩⟩⟩ 0 0 (by decide) (by decide) rfl
      (by decide) (by decide) rfl).1 (Reply.value []) 0 rfl (Or.inr rfl)⟩

set_option maxRecDepth 100000 in
/-- Instance of claim C9 as amended. Card mode on work item 500 when the final
update is refused with `denied`: the exception is caught by the handler of
`main` and the run ends as fatal, the refused update being the last call. -/
theorem failures_reach_the_handler_witness :
    Scenario.refusingServices.getWorkItem (some 500) false
        (⟨0, [Call.connect, Call.getWorkItem (some 500) true]⟩ : World Nat).state =
      (Reply.value Scenario.workItem500, 0) ∧
    (catchFatal (analyseAndUpdate Scenario.config Scenario.cardInput Scenario.refusingServices
        (some 500) [some 42, some 43]
        ⟨0, [Call.connect, Call.getWorkItem (some 500) true]⟩)).1 =
      Outcome.fatal ⟨"denied".toList⟩ ∧
    (main Scenario.config Scenario.cardInput Scenario.refusingServices Scenario.start).1 =
      Outcome.fatal ⟨"denied".toList⟩ ∧
    ∃ tail : List Call,
      (main Scenario.config Scenario.prInput Scenario.unlinkedServices Scenario.start).2.calls =
        Scenario.start.calls ++ tail ∧
      ∀ (path value : Str) (id : JsNum), Call.updateWorkItem path value id ∉ tail :=
  ⟨rfl,
    ((failures_reach_the_handler Scenario.config Scenario.cardInput Scenario.refusingServices
      Scenario.start).2.1 (some 500) [some 42, some 43]
      ⟨0, [Call.connect, Call.getWorkItem (some 500) true]⟩ Scenario.workItem500 0 2
      ⟨"denied".toList⟩ rfl (by rfl)).1,
    by rfl,
    (failures_reach_the_handler Scenario.config Scenario.prInput Scenario.unlinkedServices
      Scenario.start).1 (Or.inl (by rfl))⟩

set_option maxRecDepth 100000 in
/-- Claim C9 as stated fails. In card mode on work item 500 the resolution
succeeds and the fetch of the requirements (line 202) raises `offline`: this
failure, which is neither a resolution failure nor a failure of the final
update, reaches the handler of `main` and ends the run; likewise a failing
creation of the clients. -/
theorem requirements_failure_reaches_the_handler :
    (resolveCard Scenario.offlineServices (some 500) ⟨0, [Call.connect]⟩).1 =
      Res.ok (Resolved.workSet (some 500) [some 42, some 43]) ∧
    main Scenario.config Scenario.cardInput Scenario.offlineServices Scenario.start =
      (Outcome.fatal ⟨"offline".toList⟩,
        ⟨0, [Call.connect, Call.getWorkItem (some 500) true,
          Call.getWorkItem (some 500) false]⟩) ∧
    main Scenario.config Scenario.cardInput
        { Scenario.services with connect := fun n => (some ⟨"no network".toList⟩, n) }
        Scenario.start =
      (Outcome.fatal ⟨"no network".toList⟩, ⟨0, [Call.connect]⟩) := by
  refine ⟨by rfl, by rfl, by rfl⟩

set_option maxRecDepth 100000 in
/-- The exit code after a failure: a refused update, an unlinked PR and a work
item without pull-request link each end the run with exit code 0, whereas the
missing credentials and the invalid ID end it with exit code 1. -/
theorem exit_codes_after_failures :
    (main Scenario.config Scenario.cardInput Scenario.refusingServices
      Scenario.start).1.exitCode = 0 ∧
    ((main Scenario.config Scenario.prInput Scenario.unlinkedServices Scenario.start).1 =
        Outcome.notLinked ∧
      (main Scenario.config Scenario.prInput Scenario.unlinkedServices
        Scenario.start).1.exitCode = 0) ∧
    ((main Scenario.config Scenario.cardInput (Scenario.servicesWith []) Scenario.start).1 =
        Outcome.noLinkedPRs ∧
      (main Scenario.config Scenario.cardInput (Scenario.servicesWith [])
        Scenario.start).1.exitCode = 0) ∧
    (main ⟨none, some "key".toList, none⟩ Scenario.cardInput Scenario.services
      Scenario.start).1.exitCode = 1 ∧
    (main Scenario.config Scenario.zeroInput Scenario.services Scenario.start).1.exitCode = 1 := by
  refine ⟨by rfl, ⟨by rfl, by rfl⟩, ⟨by rfl, by rfl⟩, by rfl, by rfl⟩

set_option maxRecDepth 100000 in
/-- Claim C10 at its failing input. The ID test rejects `0` and `abc` after the
connection, with no further call, but the negative identifier `-5` passes it:
the run is not rejected as invalid ID and the resolution call is made for work
item -5. -/
theorem negative_id_is_accepted :
    main Scenario.config Scenario.zeroInput Scenario.services Scenario.start =
      (Outcome.invalidId, ⟨0, [Call.connect]⟩) ∧
    main Scenario.config ⟨"2".toList, "abc".toList, "today".toList⟩ Scenario.services
        Scenario.start =
      (Outcome.invalidId, ⟨0, [Call.connect]⟩) ∧
    parseInt (trim Scenario.negativeInput.idInput) = some (-5) ∧
    main Scenario.config Scenario.negativeInput (Scenario.servicesWith []) Scenario.start =
      (Outcome.noLinkedPRs, ⟨0, [Call.connect, Call.getWorkItem (some (-5)) true]⟩) ∧
    (main Scenario.config Scenario.negativeInput Scenario.services Scenario.start).1 ≠
      Outcome.invalidId := by
  refine ⟨by rfl, by rfl, by decide, by rfl, by decide⟩

end AzureValidator
